import Mathlib

/-!
Shallow embedding of the `zonefile` utility's record-derivation engine
(`src/parse.js`) and of its unbound local-zone renderer, together with
proofs about the normalization and rendering behaviour.

Conventions of the embedding:
* JavaScript values occurring inside section value lists are modelled by
  `Tok` (a YAML scalar is either a number or a string here).
* JavaScript objects used as ordered string-keyed maps are modelled as
  association lists; `for (const k in o)` iterates in insertion order.
* In-place array mutation (`Array.prototype.shift` / `pop`) performed by
  `parseZone` on value lists of the input is made explicit: the embedded
  `parseZone` returns, next to the zone list, the post-run state of the
  input object graph.
* Exceptions (`throw new Error`, `TypeError`s from calling methods of
  `undefined` or of numbers) become `Except String`.
-/

/-- Tokens appearing in entry value lists: a YAML scalar is either a number
or a string once the external YAML reader has produced the input map. -/
inductive Tok where
  | num (n : Int)
  | str (s : String)
deriving DecidableEq

/-- Model of the external JS string conversion `String(v)` for the scalar
values in scope (integers print in decimal, strings are unchanged). -/
def tokToString : Tok → String
  | .num n => toString n
  | .str s => s

/-- Whitespace test used by the model of JS `String.prototype.trim`. -/
def isWs (c : Char) : Bool := c = ' ' || c = '\t' || c = '\n' || c = '\r'

/-- Model of the external JS builtin `String.prototype.trim`. -/
def trimStr (s : String) : String :=
  ⟨((s.data.dropWhile isWs).reverse.dropWhile isWs).reverse⟩

/-- Model of the external JS numeric-string test `!isNaN(s)` (the `Number`
coercion), restricted to the token grammar this tool feeds it: optionally
signed decimal integers; the empty / all-whitespace string coerces to `0`
and therefore counts as numeric, exactly as in JS. Fractional, hex and
exponent notations are outside the modelled input grammar. -/
def jsNumericStr (s : String) : Bool :=
  match (s.data.dropWhile isWs).reverse.dropWhile isWs |>.reverse with
  | [] => true
  | c :: rest =>
    if c = '-' || c = '+' then !rest.isEmpty && rest.all Char.isDigit
    else (c :: rest).all Char.isDigit

/-- Model of JS `isNaN(x)` as it is applied to the result of `.at(...)` /
`.shift()`: `undefined` (absent element, `none`) is NaN, a number is not
NaN, and a string is NaN exactly when it is not numeric. -/
def tokIsNaN : Option Tok → Bool
  | none => true
  | some (.num _) => false
  | some (.str s) => ! jsNumericStr s

/-- Model of JS stringification of an optional value inside a template
literal (`undefined` prints as `"undefined"`). -/
def optTokToString : Option Tok → String
  | none => "undefined"
  | some t => tokToString t

/-- Model of JS truthiness of the `ttl` argument inside `writeLine`
(`undefined`, `0` and the empty string are falsy). -/
def tokTruthy : Option Tok → Bool
  | none => false
  | some (.num n) => n ≠ 0
  | some (.str s) => s ≠ ""

/-- Splitting helper over character lists (the model of JS
`String.prototype.split` with a single-character separator). -/
def splitAux (c : Char) : List Char → List Char → List (List Char)
  | [], acc => [acc.reverse]
  | x :: xs, acc =>
    if x = c then acc.reverse :: splitAux c xs [] else splitAux c xs (x :: acc)

/-- Model of JS `s.split('.')`. -/
def splitOnDot (s : String) : List String := (splitAux '.' s.data []).map String.mk

/-- Model of JS `s.split(':')` at character-list level, used by the IPv6
syntax model. -/
def splitOnColon (l : List Char) : List (List Char) := splitAux ':' l []

/-- Parsed IP address as produced by the external `ipaddr.js` library:
an IPv4 address is four octets, an IPv6 address is eight 16-bit groups. -/
inductive IpAddr where
  | v4 (a b c d : Nat)
  | v6 (gs : List Nat)
deriving DecidableEq

/-- Decimal octet of a dotted-quad IPv4 literal (model of the `ipaddr.js`
IPv4 parser restricted to plain decimal notation). -/
def parseDecPart (l : List Char) : Option Nat :=
  if l ≠ [] ∧ l.all Char.isDigit ∧ l.length ≤ 3 then
    let v := l.foldl (fun v c => 10 * v + (c.toNat - 48)) 0
    if v ≤ 255 then some v else none
  else none

/-- Model of the `ipaddr.js` IPv4 parser (dotted decimal quad). -/
def parseV4 (s : String) : Option IpAddr :=
  match (splitAux '.' s.data []).mapM parseDecPart with
  | some [a, b, c, d] => some (.v4 a b c d)
  | _ => none

/-- Value of a hexadecimal character. -/
def hexVal (c : Char) : Nat :=
  if c.isDigit then c.toNat - 48
  else if 'a' ≤ c ∧ c ≤ 'f' then c.toNat - 87
  else c.toNat - 55

/-- One 16-bit hex group of an IPv6 literal. -/
def parseHexPart (l : List Char) : Option Nat :=
  if l ≠ [] ∧ l.all (fun c => c.isDigit || ('a' ≤ c && c ≤ 'f') || ('A' ≤ c && c ≤ 'F')) ∧ l.length ≤ 4 then
    some (l.foldl (fun v c => 16 * v + hexVal c) 0)
  else none

/-- First occurrence of the `::` gap in an IPv6 literal, if any. -/
def findGap : List Char → Option (List Char × List Char)
  | [] => none
  | [_] => none
  | a :: b :: rest =>
    if a = ':' ∧ b = ':' then some ([], rest)
    else (findGap (b :: rest)).map (fun p => (a :: p.1, p.2))

/-- Hex groups of one side of an IPv6 literal (an empty side contributes
no groups). -/
def parseGroups (l : List Char) : Option (List Nat) :=
  if l = [] then some [] else (splitOnColon l).mapM parseHexPart

/-- Model of the `ipaddr.js` IPv6 parser, restricted to plain hex-group
notation with at most one `::` gap (the embedded-IPv4 and zone-id forms
are outside the modelled input grammar). -/
def parseV6 (s : String) : Option IpAddr :=
  match findGap s.data with
  | none =>
    match parseGroups s.data with
    | some gs => if gs.length = 8 then some (.v6 gs) else none
    | none => none
  | some (l, r) =>
    if (findGap r).isSome then none
    else
      match parseGroups l, parseGroups r with
      | some gl, some gr =>
        if gl.length + gr.length ≤ 7 then
          some (.v6 (gl ++ List.replicate (8 - gl.length - gr.length) 0 ++ gr))
        else none
      | _, _ => none

/-- Model of `ipaddr.parse` on strings: auto-detects the address family. -/
def ipParse (s : String) : Option IpAddr :=
  match parseV4 s with
  | some a => some a
  | none => parseV6 s

/-- Model of `ipaddr.isValid` on strings. -/
def ipValidStr (s : String) : Bool := (ipParse s).isSome

/-- Model of `ipaddr.isValid` on an arbitrary token: `ipaddr.js` guards its
parser with try/catch, so a non-string argument (whose `match` method call
raises a `TypeError` inside the guard) is simply reported as not valid. -/
def isValidTok : Tok → Bool
  | .str s => ipValidStr s
  | .num _ => false

/-- Model of `ipaddr.parse` on a token: on a non-string it raises. -/
def ipParseTok : Tok → Except String IpAddr
  | .str s =>
    match ipParse s with
    | some a => .ok a
    | none => .error ("ipaddr: the address has neither IPv6 nor IPv4 format: " ++ s)
  | .num _ => .error "ipaddr: TypeError: not a string"

/-- Model of the `toString` method of a parsed `ipaddr.js` address. The
IPv6 form is printed as eight uncompressed lowercase hex groups; like the
library's compressed form it is injective on parsed addresses, which is
all the de-duplication logic relies on. -/
def ipToString : IpAddr → String
  | .v4 a b c d =>
    toString a ++ "." ++ toString b ++ "." ++ toString c ++ "." ++ toString d
  | .v6 gs => String.intercalate ":" (gs.map (fun g => ⟨Nat.toDigits 16 g⟩))

/-- Kind tag of a parsed address (`ipaddr.js` `kind()`). -/
def kindStr : IpAddr → String
  | .v4 _ _ _ _ => "ipv4"
  | .v6 _ => "ipv6"

/-- Entry value inside a section object: the YAML reader produces either a
scalar, an array, or (for an absent key that is still read) `undefined`. -/
inductive Val where
  | scalar (t : Tok)
  | arr (l : List Tok)
  | undef
deriving DecidableEq

/-- Embedding of `toArray` from `src/util.js`. Note that for an array
argument it returns the very same array object, which is why in-place
mutation of the returned list is mutation of the input. -/
def toArray : Val → List Tok
  | .undef => []
  | .arr l => l
  | .scalar t => [t]

/-- The `nameserver` section is either absent, a plain array of hostnames,
or a hostname→value-list mapping (`src/parse.js` branches on
`Array.isArray`). -/
inductive NsVal where
  | noneNS
  | arrNS (l : List Tok)
  | mapNS (m : List (String × Val))
deriving DecidableEq

/-- The `soa` input object of one zone (`nameserver` and `email` required
by the code, the rest defaulted in `createZone`). -/
structure SoaIn where
  nameserver : Tok
  email : String
  serial : Option Int
  refresh : Option Int
  retry : Option Int
  expire : Option Int
  nrc_ttl : Option Int
  ttl : Option Int
deriving DecidableEq

/-- Raw input for one zone: the recognized sections of the per-zone map. -/
structure ZoneIn where
  soa : SoaIn
  addresses : List (String × Val)
  hosts : List (String × Val)
  nameserver : NsVal
  mx : List (String × Val)
  srv : List (String × List Tok)
deriving DecidableEq

/-- A/AAAA record as built by `createA`. -/
structure ARec where
  name : String
  ip : IpAddr
  ttl : Option Tok
deriving DecidableEq

/-- PTR record as built by `createPtr`. -/
structure PtrRec where
  name : String
  ip : IpAddr
  ttl : Option Tok
deriving DecidableEq

/-- NS record as built by `createNameserver`. -/
structure NsRec where
  zone : String
  name : String
  ttl : Option Tok
deriving DecidableEq

/-- MX record as built by `createMX` (the priority is stored exactly as the
shifted token). -/
structure MxRec where
  zone : String
  name : String
  prio : Tok
  ttl : Option Tok
deriving DecidableEq

/-- SRV record as built by `createSRV`. -/
structure SrvRec where
  name : String
  service : String
  prio : Tok
  weight : Tok
  port : Tok
  ttl : Option Tok
deriving DecidableEq

/-- Canonical zone value produced by the normalizer (`createZone` plus the
record lists appended while the sections are processed). -/
structure Zone where
  name : String
  nameserver : Tok
  email : String
  serial : Int
  refresh : Int
  retry : Int
  expire : Int
  nrc_ttl : Int
  ttl : Int
  hosts : List ARec
  ptrs : List PtrRec
  ns : List NsRec
  mx : List MxRec
  srv : List SrvRec
deriving DecidableEq

/-- Test for a trailing `'.'`, the model of the `host.endsWith('.')` call
in `hostString`. -/
def lastIsDot (s : String) : Bool :=
  match s.data.getLast? with
  | some c => c = '.'
  | none => false

/-- Test for a leading `'_'`, the model of the `startsWith('_')` calls in
`createSRV`. -/
def headIsUnderscore (s : String) : Bool :=
  match s.data with
  | c :: _ => c = '_'
  | [] => false

/-- Embedding of `hostString` from `src/parse.js` for a string host. -/
def hostStringStr (host zone : String) : String :=
  if host = "." then zone
  else if lastIsDot host then host
  else host ++ "." ++ zone ++ "."

/-- `hostString` applied to an arbitrary (possibly absent) token: calling
`.endsWith` on `undefined` or on a number raises a `TypeError` in JS. -/
def hostStringTok : Option Tok → String → Except String String
  | none, _ => .error "TypeError: Cannot read properties of undefined (reading endsWith)"
  | some (.num _), _ => .error "TypeError: host.endsWith is not a function"
  | some (.str s), zone => .ok (hostStringStr s zone)

/-- Embedding of `createMX` from `src/parse.js`. -/
def createMX (zone : String) (hostname : Tok) (prio : Tok) (ttl : Option Tok) :
    Except String MxRec := do
  let nm ← hostStringTok (some hostname) zone
  .ok { zone := zone, name := nm, prio := prio, ttl := ttl }

/-- Embedding of `createNameserver` from `src/parse.js`. -/
def createNameserver (zone : String) (hostname : Tok) (ttl : Option Tok) :
    Except String NsRec := do
  let nm ← hostStringTok (some hostname) zone
  .ok { zone := zone, name := nm, ttl := ttl }

/-- Embedding of `createA` from `src/parse.js`. -/
def createA (zone : String) (hostname : Tok) (ip : Tok) (ttl : Option Tok) :
    Except String ARec := do
  let nm ← hostStringTok (some hostname) zone
  let a ← ipParseTok ip
  .ok { name := nm, ip := a, ttl := ttl }

/-- Embedding of `createPtr` from `src/parse.js`. -/
def createPtr (zone : String) (hostname : Tok) (ip : Tok) (ttl : Option Tok) :
    Except String PtrRec := do
  let nm ← hostStringTok (some hostname) zone
  let a ← ipParseTok ip
  .ok { name := nm, ip := a, ttl := ttl }

/-- Adds a leading underscore unless one is present (the two conditional
rewrites inside `createSRV`). -/
def underscored (s : String) : String :=
  if headIsUnderscore s then s else "_" ++ s

/-- Embedding of `createSRV` from `src/parse.js`. The service label is
split on `'.'`; if it has no `'.'` at all the destructured `protocol` is
`undefined` and the `startsWith` call raises. The target hostname is the
element left in the list after the positional shifts and may be absent. -/
def createSRV (zone : String) (hostname : Option Tok) (service : String)
    (port prio weight : Tok) (ttl : Option Tok) : Except String SrvRec := do
  match splitOnDot service with
  | [] => .error "TypeError: Cannot read properties of undefined (reading startsWith)"
  | [_] => .error "TypeError: Cannot read properties of undefined (reading startsWith)"
  | n :: p :: rest => do
    let nm ← hostStringTok hostname zone
    let svc := hostStringStr (String.intercalate "." (underscored n :: underscored p :: rest)) zone
    .ok { name := nm, service := svc, prio := prio, weight := weight, port := port, ttl := ttl }

/-- Model of JS `v.replace('@', '.')`: only the first occurrence is
replaced. -/
def replaceAtAux : List Char → List Char
  | [] => []
  | c :: r => if c = '@' then '.' :: r else c :: replaceAtAux r

/-- Model of the `email.replace('@', '.')` calls. -/
def jsReplaceAt (s : String) : String := ⟨replaceAtAux s.data⟩

/-- Embedding of `createZone` from `src/parse.js`: SOA fields resolved
with their defaults, empty record lists. -/
def createZone (name : String) (soa : SoaIn) (SERIAL : Int) : Zone :=
  { name := name
    nameserver := soa.nameserver
    email := jsReplaceAt soa.email
    serial := soa.serial.getD SERIAL
    refresh := soa.refresh.getD 7200
    retry := soa.retry.getD 3600
    expire := soa.expire.getD 1209600
    nrc_ttl := soa.nrc_ttl.getD 3600
    ttl := soa.ttl.getD 10800
    hosts := []
    ptrs := []
    ns := []
    mx := []
    srv := [] }

/-- The trailing-TTL step shared by every section loop:
`const ttl = isNaN(info.at(-1)) ? undefined : info.pop()`. Returns the
popped TTL (if any) and the remaining list. -/
def popTTL (info : List Tok) : Option Tok × List Tok :=
  if tokIsNaN info.getLast? then (none, info) else (info.getLast?, info.dropLast)

/-- The token classification of the `addresses`/`hosts` loops: pop the
trailing TTL, then `ips = info.filter(ipaddr.isValid)` and
`aliases = info.filter(a => !ips.includes(a))`. -/
def classifyTokens (info : List Tok) : Option Tok × List Tok × List Tok :=
  let p := popTTL info
  let ips := p.2.filter isValidTok
  (p.1, ips, p.2.filter (fun a => ! ips.contains a))

/-- Model of `Array.prototype.shift` (also returns the array's new
state). -/
def jsShift : List Tok → Option Tok × List Tok
  | [] => (none, [])
  | t :: r => (some t, r)

/-- Post-run state of an entry value that went through `toArray` and the
trailing-TTL pop: only an array value is aliased and hence mutated. -/
def postPopVal : Val → Val
  | .arr l => .arr (popTTL l).2
  | v => v

/-- Post-run state of an `mx` entry value: the priority shift happens
before the trailing-TTL pop, again only visible through an array value. -/
def postMxVal : Val → Val
  | .arr l => .arr (popTTL (jsShift l).2).2
  | v => v

/-- Appends an A/AAAA record (`zone.hosts.push`). -/
def pushHost (z : Zone) (a : ARec) : Zone := { z with hosts := z.hosts ++ [a] }

/-- Appends a PTR record (`zone.ptrs.push`). -/
def pushPtr (z : Zone) (p : PtrRec) : Zone := { z with ptrs := z.ptrs ++ [p] }

/-- Appends an NS record (`zone.ns.push`). -/
def pushNs (z : Zone) (r : NsRec) : Zone := { z with ns := z.ns ++ [r] }

/-- Appends an MX record (`zone.mx.push`). -/
def pushMx (z : Zone) (r : MxRec) : Zone := { z with mx := z.mx ++ [r] }

/-- Appends an SRV record (`zone.srv.push`). -/
def pushSrv (z : Zone) (r : SrvRec) : Zone := { z with srv := z.srv ++ [r] }

/-- The inner `aliases.forEach` of the `addresses`/`hosts` loops: one
additional A/AAAA record per alias for the current IP. -/
def aliasLoop (nm : String) (ip : Tok) (ttl : Option Tok) (z : Zone) :
    List Tok → Except String Zone
  | [] => .ok z
  | a :: rest => do
    let r ← createA nm a ip ttl
    aliasLoop nm ip ttl (pushHost z r) rest

/-- The `ips.forEach` of the `addresses` loop: A/AAAA for the host label,
then one per alias; no PTR. -/
def addressesIpLoop (nm host : String) (aliases : List Tok) (ttl : Option Tok)
    (z : Zone) : List Tok → Except String Zone
  | [] => .ok z
  | ip :: rest => do
    let r ← createA nm (.str host) ip ttl
    let z1 ← aliasLoop nm ip ttl (pushHost z r) aliases
    addressesIpLoop nm host aliases ttl z1 rest

/-- The `ips.forEach` of the `hosts` loop: A/AAAA and PTR for the host
label, then one A/AAAA per alias. -/
def hostsIpLoop (nm host : String) (aliases : List Tok) (ttl : Option Tok)
    (z : Zone) : List Tok → Except String Zone
  | [] => .ok z
  | ip :: rest => do
    let r ← createA nm (.str host) ip ttl
    let p ← createPtr nm (.str host) ip ttl
    let z1 ← aliasLoop nm ip ttl (pushPtr (pushHost z r) p) aliases
    hostsIpLoop nm host aliases ttl z1 rest

/-- One entry of the `addresses` loop of `parseZone`. -/
def processAddressesEntry (nm : String) (z : Zone) (host : String) (v : Val) :
    Except String (Zone × Val) := do
  let c := classifyTokens (toArray v)
  let z1 ← addressesIpLoop nm host c.2.2 c.1 z c.2.1
  .ok (z1, postPopVal v)

/-- One entry of the `hosts` loop of `parseZone`. -/
def processHostsEntry (nm : String) (z : Zone) (host : String) (v : Val) :
    Except String (Zone × Val) := do
  let c := classifyTokens (toArray v)
  let z1 ← hostsIpLoop nm host c.2.2 c.1 z c.2.1
  .ok (z1, postPopVal v)

/-- The shared `ips.forEach` of the `nameserver`-mapping and `mx` loops:
push the A/AAAA record, then push a PTR unless one with the same resolved
IP string is already present in the zone. -/
def dedupIpLoop (nm host : String) (ttl : Option Tok) (z : Zone) :
    List Tok → Except String Zone
  | [] => .ok z
  | ip :: rest => do
    let a ← createA nm (.str host) ip ttl
    let z1 := pushHost z a
    let parsed ← ipParseTok ip
    let ipString := ipToString parsed
    let z2 ←
      if (z1.ptrs.find? (fun p => ipToString p.ip == ipString)).isSome then
        pure z1
      else do
        let p ← createPtr nm (.str host) ip ttl
        pure (pushPtr z1 p)
    dedupIpLoop nm host ttl z2 rest

/-- One entry of the `nameserver` mapping branch of `parseZone`. -/
def processNameserverEntry (nm : String) (z : Zone) (host : String) (v : Val) :
    Except String (Zone × Val) := do
  let p := popTTL (toArray v)
  let ips := p.2.filter isValidTok
  let nsr ← createNameserver nm (.str host) p.1
  let z1 := pushNs z nsr
  if ips.isEmpty then
    .ok (z1, postPopVal v)
  else if (z1.hosts.find? (fun h => h.name == nsr.name)).isSome then
    .ok (z1, postPopVal v)
  else do
    let z2 ← dedupIpLoop nm host p.1 z1 ips
    .ok (z2, postPopVal v)

/-- The error message of the MX-priority check. The source interpolates
`${zone}` where `zone` is the zone object under construction, and JS
stringifies a plain object as `[object Object]`. -/
def mxPrioMsg (host tok : String) : String :=
  "First Argument to MX is prio (Number): [object Object] " ++ host ++ " " ++ tok

/-- One entry of the `mx` loop of `parseZone`. -/
def processMxEntry (nm : String) (z : Zone) (host : String) (v : Val) :
    Except String (Zone × Val) :=
  let s := jsShift (toArray v)
  if tokIsNaN s.1 then .error (mxPrioMsg host (optTokToString s.1))
  else
    match s.1 with
    | none => .error (mxPrioMsg host "undefined")
    | some prio => do
      let p := popTTL s.2
      let ips := p.2.filter isValidTok
      let record ← createMX nm (.str host) prio p.1
      let z1 := pushMx z record
      if ips.isEmpty then
        .ok (z1, postMxVal v)
      else if (z1.hosts.find? (fun h => h.name == record.name)).isSome then
        .ok (z1, postMxVal v)
      else do
        let z2 ← dedupIpLoop nm host p.1 z1 ips
        .ok (z2, postMxVal v)

/-- The SRV shape error message; the source interpolates the (already
popped) entry array, which JS prints comma-joined. -/
def srvShapeMsg (info : List Tok) : String :=
  "Couldn't identify SRV record. It's [port, name] or [prio, weight, port, name]. Given: "
    ++ String.intercalate "," (info.map tokToString)

/-- One entry of the `srv` loop of `parseZone`. Note that the source reads
`srv[service]` directly (no `toArray` copy), pops a trailing TTL and then
shifts the positional values, so the remaining list is the entry's new
state. -/
def processSrvEntry (nm : String) (z : Zone) (service : String) (l : List Tok) :
    Except String (Zone × List Tok) :=
  let p := popTTL l
  let info := p.2
  if !tokIsNaN (info.get? 0) && !tokIsNaN (info.get? 1) && !tokIsNaN (info.get? 2) then
    match info with
    | prio :: weight :: port :: rest => do
      let r ← createSRV nm rest.head? service port prio weight p.1
      .ok (pushSrv z r, rest)
    | _ => .error "unreachable: three leading numeric elements imply length at least three"
  else if !tokIsNaN (info.get? 0) && tokIsNaN (info.get? 1) then
    match info with
    | port :: rest => do
      let r ← createSRV nm rest.head? service port (.num 5) (.num 0) p.1
      .ok (pushSrv z r, rest)
    | _ => .error "unreachable: a numeric first element implies a nonempty list"
  else
    .error (srvShapeMsg info)

/-- The generic traversal of one section object: process the entries in
insertion order, threading the zone under construction and recording each
entry value's post-run state. -/
def processSection (f : Zone → String → Val → Except String (Zone × Val)) (z : Zone) :
    List (String × Val) → Except String (Zone × List (String × Val))
  | [] => .ok (z, [])
  | (k, v) :: rest => do
    let r1 ← f z k v
    let r2 ← processSection f r1.1 rest
    .ok (r2.1, (k, r1.2) :: r2.2)

/-- The `nameserver.forEach` of the plain-array branch: one NS record per
element, no TTL argument. -/
def nsArrLoop (nm : String) (z : Zone) : List Tok → Except String Zone
  | [] => .ok z
  | h :: rest => do
    let r ← createNameserver nm h none
    nsArrLoop nm (pushNs z r) rest

/-- The `nameserver` section of `parseZone`: `Array.isArray` branch or the
mapping branch (iterating over `undefined` does nothing). -/
def processNameserver (nm : String) (z : Zone) : NsVal → Except String (Zone × NsVal)
  | .noneNS => .ok (z, .noneNS)
  | .arrNS l => do
    let z1 ← nsArrLoop nm z l
    .ok (z1, .arrNS l)
  | .mapNS m => do
    let r ← processSection (processNameserverEntry nm) z m
    .ok (r.1, .mapNS r.2)

/-- The `srv` section traversal. -/
def processSrvSection (nm : String) (z : Zone) :
    List (String × List Tok) → Except String (Zone × List (String × List Tok))
  | [] => .ok (z, [])
  | (k, l) :: rest => do
    let r1 ← processSrvEntry nm z k l
    let r2 ← processSrvSection nm r1.1 rest
    .ok (r2.1, (k, r1.2) :: r2.2)

/-- The forward stages of one zone's normalization: `createZone`, then the
`addresses` loop, then the `hosts` loop. -/
def forwardStages (nm : String) (zin : ZoneIn) (SERIAL : Int) :
    Except String (Zone × List (String × Val) × List (String × Val)) := do
  let z := createZone nm zin.soa SERIAL
  let r1 ← processSection (processAddressesEntry nm) z zin.addresses
  let r2 ← processSection (processHostsEntry nm) r1.1 zin.hosts
  .ok (r2.1, r1.2, r2.2)

/-- Normalization of one zone: the body of the `Object.keys(...).map`
callback of `parseZone`, returning the zone together with the post-run
state of its raw input. -/
def buildZone (nm : String) (zin : ZoneIn) (SERIAL : Int) :
    Except String (Zone × ZoneIn) := do
  let f ← forwardStages nm zin SERIAL
  let r3 ← processNameserver nm f.1 zin.nameserver
  let r4 ← processSection (processMxEntry nm) r3.1 zin.mx
  let r5 ← processSrvSection nm r4.1 zin.srv
  .ok (r5.1,
    { soa := zin.soa, addresses := f.2.1, hosts := f.2.2,
      nameserver := r3.2, mx := r4.2, srv := r5.2 })

/-- Worker of `parseZone` over the ordered zone entries. -/
def parseZoneGo (SERIAL : Int) :
    List (String × ZoneIn) → Except String (List Zone × List (String × ZoneIn))
  | [] => .ok ([], [])
  | (nm, zin) :: rest => do
    let r ← buildZone nm zin SERIAL
    let rs ← parseZoneGo SERIAL rest
    .ok (r.1 :: rs.1, (nm, r.2) :: rs.2)

/-- Embedding of the default export `parseZone` of `src/parse.js`: maps
every zone key to its normalized `Zone`. Because the source mutates entry
value lists in place (`shift`/`pop` on the very arrays of the input), the
embedding additionally returns the post-run state of the input. -/
def parseZone (zoneData : List (String × ZoneIn)) (SERIAL : Int) :
    Except String (List Zone × List (String × ZoneIn)) :=
  parseZoneGo SERIAL zoneData

/-- The fixed four-space line indent of the renderer. -/
def INDENT : String := "    "

/-- The `local-data:` directive keyword constant. -/
def LOCAL_DATA : String := "local-data:     "

/-- The `local-zone:` directive keyword constant. -/
def LOCAL_ZONE : String := "local-zone:     "

/-- The `local-data-ptr:` directive keyword constant. -/
def LOCAL_PTR : String := "local-data-ptr: "

/-- Model of the JS builtin `String.prototype.padEnd` with the space pad
character (never truncates). -/
def padEndStr (s : String) (n : Nat) : String :=
  s ++ ⟨List.replicate (n - s.length) ' '⟩

/-- The TTL column of `writeLine`: a truthy TTL is printed padded to six
columns, otherwise six blanks stand in its place. -/
def ttlField (ttl : Option Tok) : String :=
  match ttl with
  | some t => if tokTruthy (some t) then padEndStr (tokToString t) 6 else "      "
  | none => "      "

/-- Embedding of `writeLine` from the unbound renderer: the text one call
appends to the output writer. -/
def writeLine (cmd left : String) (ttl : Option Tok) (middle right : String) : String :=
  INDENT ++ padEndStr cmd 15 ++ " \"" ++ padEndStr left 40 ++ " " ++ ttlField ttl
    ++ " " ++ padEndStr (trimStr middle) 7 ++ " " ++ right ++ "\"\n"

/-- Embedding of `localData`. -/
def localData (left : String) (ttl : Option Tok) (middle right : String) : String :=
  writeLine LOCAL_DATA left ttl middle right

/-- Embedding of `localPtr`. -/
def localPtr (ip : String) (ttl : Option Tok) (name : String) : String :=
  writeLine LOCAL_PTR ip ttl "" name

/-- The SOA value string rendered by `soa`: primary nameserver (taken from
`ns[0].name`), dotted admin email, then the five timing fields. -/
def soaValue (z : Zone) (n0 : NsRec) : String :=
  n0.name ++ " " ++ jsReplaceAt z.email ++ ". " ++ toString z.serial ++ " "
    ++ toString z.refresh ++ " " ++ toString z.retry ++ " " ++ toString z.expire
    ++ " " ++ toString z.nrc_ttl

/-- The SOA line emitted for a zone, given its first NS record. -/
def soaLine (z : Zone) (n0 : NsRec) : String :=
  localData (z.name ++ ".") (some (.num z.ttl)) "IN SOA" (soaValue z n0)

/-- Embedding of the renderer's `soa` function: it reads `ns[0].name`, so
on a zone with an empty `ns` list the property access raises. -/
def soaW (z : Zone) : Except String String :=
  match z.ns with
  | [] => .error "TypeError: Cannot read properties of undefined (reading name)"
  | n0 :: _ => .ok (soaLine z n0)

/-- Embedding of the renderer's `entry` (A/AAAA line). -/
def entryLine (a : ARec) : String :=
  localData a.name a.ttl ("IN " ++ (if kindStr a.ip == "ipv4" then "A   " else "AAAA"))
    (ipToString a.ip)

/-- Embedding of the renderer's `ptr_record`. -/
def ptrLine (p : PtrRec) : String := localPtr (ipToString p.ip) p.ttl p.name

/-- Embedding of the renderer's `ns_record`. -/
def nsLine (r : NsRec) : String := localData (r.zone ++ ".") r.ttl "IN NS" r.name

/-- Embedding of the renderer's `mx_record`. -/
def mxLine (r : MxRec) : String :=
  localData (r.zone ++ ".") r.ttl "IN MX" (tokToString r.prio ++ " " ++ r.name)

/-- Embedding of the renderer's `srv_record`. -/
def srvLine (r : SrvRec) : String :=
  localData r.service r.ttl "IN SRV"
    (tokToString r.prio ++ " " ++ tokToString r.weight ++ " " ++ tokToString r.port
      ++ " " ++ r.name)

/-- The zone-declaration line written at the head of each zone's block. -/
def declLine (z : Zone) : String :=
  "\n" ++ INDENT ++ LOCAL_ZONE ++ " " ++ z.name ++ " static\n"

/-- Worker of the renderer's `unbound`: appends each zone's block to the
accumulated output buffer, failing on the `ns[0]` access of a zone with no
NS record. -/
def unboundGo (buf : String) : List Zone → Except String String
  | [] => .ok buf
  | z :: rest => do
    let s ← soaW z
    let b1 := buf ++ declLine z ++ s
    let b2 := z.ns.foldl (fun b r => b ++ nsLine r) b1
    let b3 := z.mx.foldl (fun b r => b ++ mxLine r) b2
    let b4 := z.hosts.foldl (fun b r => b ++ entryLine r) b3
    let b5 := z.ptrs.foldl (fun b r => b ++ ptrLine r) b4
    let b6 := z.srv.foldl (fun b r => b ++ srvLine r) b5
    unboundGo b6 rest

/-- Embedding of the default export `unbound` of the renderer: the full
text written to the output sink. -/
def unbound (zones : List Zone) : Except String String :=
  unboundGo "server:\n" zones

/-- Plain list-recursive string concatenation, used to state ordering
properties of the rendered output. -/
def joinStr : List String → String
  | [] => ""
  | s :: rest => s ++ joinStr rest

/-- Zone block layout as the specification words it (section 4.2): the
zone-declaration line, the SOA record, then the NS, MX, A/AAAA, PTR (and
trailing SRV) lines, each list in declared order. Stated from the spec to
be compared with the source-derived `unbound`. -/
def renderZoneSpec (z : Zone) : String :=
  declLine z
    ++ (match z.ns with
        | [] => ""
        | n0 :: _ => soaLine z n0)
    ++ joinStr (z.ns.map nsLine)
    ++ joinStr (z.mx.map mxLine)
    ++ joinStr (z.hosts.map entryLine)
    ++ joinStr (z.ptrs.map ptrLine)
    ++ joinStr (z.srv.map srvLine)

/-- The PTR de-duplication keys of a zone: the resolved IP strings of its
PTR records, in order. -/
def ptrStrings (z : Zone) : List String := z.ptrs.map (fun p => ipToString p.ip)

/-- Resolved address of a token that passed `ipaddr.isValid`. -/
def tokIp (t : Tok) : IpAddr :=
  match t with
  | .str s => (ipParse s).getD (.v4 0 0 0 0)
  | .num _ => .v4 0 0 0 0

/-- Resolved IP string of a token that passed `ipaddr.isValid`. -/
def tokIpStr (t : Tok) : String := ipToString (tokIp t)

lemma createA_ok_of_valid (nm s : String) (ip : Tok) (ttl : Option Tok)
    (h : isValidTok ip = true) :
    createA nm (.str s) ip ttl = .ok ⟨hostStringStr s nm, tokIp ip, ttl⟩ := by
  cases ip with
  | num n => simp [isValidTok] at h
  | str t =>
    simp only [isValidTok, ipValidStr, Option.isSome_iff_exists] at h
    obtain ⟨a, ha⟩ := h
    simp [createA, hostStringTok, ipParseTok, ha, bind, Except.bind, tokIp]

lemma createPtr_ok_of_valid (nm s : String) (ip : Tok) (ttl : Option Tok)
    (h : isValidTok ip = true) :
    createPtr nm (.str s) ip ttl = .ok ⟨hostStringStr s nm, tokIp ip, ttl⟩ := by
  cases ip with
  | num n => simp [isValidTok] at h
  | str t =>
    simp only [isValidTok, ipValidStr, Option.isSome_iff_exists] at h
    obtain ⟨a, ha⟩ := h
    simp [createPtr, hostStringTok, ipParseTok, ha, bind, Except.bind, tokIp]

lemma ipParseTok_ok_of_valid (ip : Tok) (h : isValidTok ip = true) :
    ipParseTok ip = .ok (tokIp ip) := by
  cases ip with
  | num n => simp [isValidTok] at h
  | str t =>
    simp only [isValidTok, ipValidStr, Option.isSome_iff_exists] at h
    obtain ⟨a, ha⟩ := h
    simp [ipParseTok, ha, tokIp]

lemma aliasLoop_ok_inv (nm : String) (ip : Tok) (ttl : Option Tok) :
    ∀ (as : List Tok) (z z' : Zone), aliasLoop nm ip ttl z as = .ok z' →
      z'.ptrs = z.ptrs ∧ z'.ns = z.ns ∧ z'.mx = z.mx ∧ z'.srv = z.srv ∧
      z'.hosts.length = z.hosts.length + as.length := by
  intro as
  induction as with
  | nil => intro z z' h; simp [aliasLoop] at h; simp [h]
  | cons a rest ih =>
    intro z z' h
    simp only [aliasLoop, bind, Except.bind] at h
    cases h1 : createA nm a ip ttl with
    | error e => rw [h1] at h; simp at h
    | ok r =>
      rw [h1] at h
      have := ih (pushHost z r) z' h
      simpa [pushHost, Nat.add_assoc, Nat.add_comm 1 rest.length] using this

lemma aliasLoop_ok_ex (nm : String) (ip : Tok) (ttl : Option Tok)
    (hip : isValidTok ip = true) :
    ∀ (as : List Tok) (z : Zone), (∀ a ∈ as, ∃ s, a = Tok.str s) →
      ∃ z', aliasLoop nm ip ttl z as = .ok z' := by
  intro as
  induction as with
  | nil => intro z _; exact ⟨z, rfl⟩
  | cons a rest ih =>
    intro z hstr
    obtain ⟨s, rfl⟩ := hstr a (by simp)
    obtain ⟨z', hz'⟩ := ih (pushHost z ⟨hostStringStr s nm, tokIp ip, ttl⟩)
      (fun a ha => hstr a (by simp [ha]))
    refine ⟨z', ?_⟩
    simp only [aliasLoop, bind, Except.bind, createA_ok_of_valid nm s ip ttl hip]
    exact hz'

lemma addressesIpLoop_ok_inv (nm host : String) (aliases : List Tok) (ttl : Option Tok) :
    ∀ (ips : List Tok) (z z' : Zone), addressesIpLoop nm host aliases ttl z ips = .ok z' →
      z'.ptrs = z.ptrs ∧ z'.ns = z.ns ∧ z'.mx = z.mx ∧ z'.srv = z.srv := by
  intro ips
  induction ips with
  | nil => intro z z' h; simp [addressesIpLoop] at h; simp [h]
  | cons ip rest ih =>
    intro z z' h
    simp only [addressesIpLoop, bind, Except.bind] at h
    cases h1 : createA nm (.str host) ip ttl with
    | error e => simp [h1] at h
    | ok r =>
      simp only [h1] at h
      cases h2 : aliasLoop nm ip ttl (pushHost z r) aliases with
      | error e => simp [h2] at h
      | ok z1 =>
        simp only [h2] at h
        have ha := aliasLoop_ok_inv nm ip ttl aliases (pushHost z r) z1 h2
        have hr := ih z1 z' h
        simp only [pushHost] at ha
        exact ⟨hr.1.trans ha.1, hr.2.1.trans ha.2.1, hr.2.2.1.trans ha.2.2.1,
          hr.2.2.2.trans ha.2.2.2.1⟩

lemma processAddressesEntry_inv (nm : String) (z : Zone) (k : String) (v : Val)
    (z1 : Zone) (v1 : Val) (h : processAddressesEntry nm z k v = .ok (z1, v1)) :
    z1.ptrs = z.ptrs ∧ z1.ns = z.ns ∧ z1.mx = z.mx ∧ z1.srv = z.srv := by
  simp only [processAddressesEntry, bind, Except.bind] at h
  cases h1 : addressesIpLoop nm k (classifyTokens (toArray v)).2.2
      (classifyTokens (toArray v)).1 z (classifyTokens (toArray v)).2.1 with
  | error e => simp [h1] at h
  | ok z2 =>
    simp only [h1] at h
    simp at h
    exact h.1 ▸ addressesIpLoop_ok_inv nm k _ _ _ z z2 h1

lemma processSection_rel {f : Zone → String → Val → Except String (Zone × Val)}
    {R : Zone → Zone → Prop}
    (hf : ∀ z k v z1 v1, f z k v = .ok (z1, v1) → R z z1)
    (hrefl : ∀ z, R z z)
    (htrans : ∀ a b c, R a b → R b c → R a c) :
    ∀ (l : List (String × Val)) (z z' : Zone) (l' : List (String × Val)),
      processSection f z l = .ok (z', l') → R z z' := by
  intro l
  induction l with
  | nil => intro z z' l' h; simp [processSection] at h; exact h.1 ▸ hrefl z
  | cons kv rest ih =>
    obtain ⟨k, v⟩ := kv
    intro z z' l' h
    simp only [processSection, bind, Except.bind] at h
    cases h1 : f z k v with
    | error e => simp [h1] at h
    | ok r1 =>
      simp only [h1] at h
      cases h2 : processSection f r1.1 rest with
      | error e => simp [h2] at h
      | ok r2 =>
        simp only [h2] at h
        simp at h
        exact htrans z r1.1 z' (hf z k v r1.1 r1.2 h1) (h.1 ▸ ih r1.1 r2.1 r2.2 h2)

/-- Decidable equality of `Except` results, used to settle concrete runs
of the embedded functions by `decide`. -/
instance exceptDecEq {ε α : Type} [DecidableEq ε] [DecidableEq α] :
    DecidableEq (Except ε α) := fun x y =>
  match x, y with
  | .error e, .error f =>
    if h : e = f then .isTrue (congrArg Except.error h)
    else .isFalse (fun hc => h (Except.error.inj hc))
  | .error _, .ok _ => .isFalse (fun hc => Except.noConfusion hc)
  | .ok _, .error _ => .isFalse (fun hc => Except.noConfusion hc)
  | .ok a, .ok b =>
    if h : a = b then .isTrue (congrArg Except.ok h)
    else .isFalse (fun hc => h (Except.ok.inj hc))

lemma filter_not_includes (l : List Tok) :
    l.filter (fun a => ! (l.filter isValidTok).contains a) =
      l.filter (fun a => ! isValidTok a) := by
  apply List.filter_congr
  intro a ha
  simp [List.mem_filter, ha]

lemma popTTL_fst (info : List Tok) :
    (popTTL info).1 = if tokIsNaN info.getLast? then none else info.getLast? := by
  unfold popTTL
  split <;> simp_all

lemma popTTL_snd (info : List Tok) :
    (popTTL info).2 = if tokIsNaN info.getLast? then info else info.dropLast := by
  unfold popTTL
  split <;> simp_all

/-- C7: for every section entry's value list, the last element is popped
as the TTL override exactly when it is numeric, and the remaining elements
are partitioned, preserving relative order, into the tokens passing the
IP-syntax validator and all others; the classification is a total function
and never raises. -/
theorem c7_token_classification (info : List Tok) :
    classifyTokens info =
      (if tokIsNaN info.getLast? then none else info.getLast?,
       ((if tokIsNaN info.getLast? then info else info.dropLast).partition isValidTok).1,
       ((if tokIsNaN info.getLast? then info else info.dropLast).partition isValidTok).2) := by
  simp only [classifyTokens, List.partition_eq_filter_filter, Prod.mk.injEq]
  refine ⟨popTTL_fst info, ?_, ?_⟩
  · rw [popTTL_snd]
  · rw [filter_not_includes, popTTL_snd]
    rfl

/-- C9: processing the `addresses` section never appends a PTR record
(nor any NS/MX/SRV record); only the forward host list can grow. -/
theorem c9_addresses_forward_only (nm : String) (z z' : Zone)
    (entries entries' : List (String × Val))
    (h : processSection (processAddressesEntry nm) z entries = .ok (z', entries')) :
    z'.ptrs = z.ptrs ∧ z'.ns = z.ns ∧ z'.mx = z.mx ∧ z'.srv = z.srv :=
  processSection_rel
    (R := fun a b => b.ptrs = a.ptrs ∧ b.ns = a.ns ∧ b.mx = a.mx ∧ b.srv = a.srv)
    (fun z k v z1 v1 hok => processAddressesEntry_inv nm z k v z1 v1 hok)
    (fun _ => ⟨rfl, rfl, rfl, rfl⟩)
    (fun _ _ _ hab hbc => ⟨hbc.1.trans hab.1, hbc.2.1.trans hab.2.1,
      hbc.2.2.1.trans hab.2.2.1, hbc.2.2.2.trans hab.2.2.2⟩)
    entries z z' entries' h

/-- Shared sample SOA input for concrete witnesses. -/
def soaX : SoaIn :=
  ⟨.str "ns1.home.arpa", "admin@example.org", none, none, none, none, none, none⟩

/-- Shared sample zone skeleton for concrete witnesses. -/
def zX : Zone := createZone "home.arpa" soaX 1

/-- Witness for C9 at a concrete addresses section. -/
theorem c9_addresses_forward_only_witness :
    ({ zX with hosts := [⟨"extern.home.arpa.", .v4 172 16 0 1, none⟩] } : Zone).ptrs = zX.ptrs ∧
    ({ zX with hosts := [⟨"extern.home.arpa.", .v4 172 16 0 1, none⟩] } : Zone).ns = zX.ns ∧
    ({ zX with hosts := [⟨"extern.home.arpa.", .v4 172 16 0 1, none⟩] } : Zone).mx = zX.mx ∧
    ({ zX with hosts := [⟨"extern.home.arpa.", .v4 172 16 0 1, none⟩] } : Zone).srv = zX.srv :=
  c9_addresses_forward_only "home.arpa" zX _
    [("extern", .scalar (.str "172.16.0.1"))]
    [("extern", .scalar (.str "172.16.0.1"))]
    (by decide)

lemma unboundGo_isOk (zs : List Zone) :
    ∀ buf, (unboundGo buf zs).isOk = zs.all (fun z => !z.ns.isEmpty) := by
  induction zs with
  | nil => intro buf; simp [unboundGo, Except.isOk, Except.toBool]
  | cons z rest ih =>
    intro buf
    simp only [unboundGo, bind, Except.bind, soaW]
    cases hns : z.ns with
    | nil => simp [Except.isOk, Except.toBool, List.all_cons, hns]
    | cons n0 t => simp [List.all_cons, hns, ih]

/-- C10: rendering succeeds exactly when every zone has at least one NS
record (the renderer's SOA step reads `ns[0]`), and for a zone whose NS
list is non-empty the SOA line is produced from the first NS record's
name. -/
theorem c10_soa_reads_first_ns :
    (∀ zones : List Zone, (unbound zones).isOk = zones.all (fun z => !z.ns.isEmpty)) ∧
    (∀ (z : Zone) (n0 : NsRec) (t : List NsRec), z.ns = n0 :: t →
      soaW z = .ok (soaLine z n0)) := by
  constructor
  · intro zones
    exact unboundGo_isOk zones "server:\n"
  · intro z n0 t h
    simp [soaW, h]

/-- Witness for C10 at a concrete zone with one NS record. -/
theorem c10_soa_reads_first_ns_witness :
    soaW { zX with ns := [⟨"home.arpa", "ns1.home.arpa.", none⟩] } =
      .ok (soaLine { zX with ns := [⟨"home.arpa", "ns1.home.arpa.", none⟩] }
        ⟨"home.arpa", "ns1.home.arpa.", none⟩) :=
  c10_soa_reads_first_ns.2 _ _ [] rfl

lemma joinStr_nil_right (s : String) : s ++ joinStr [] = s := by
  simp [joinStr]

lemma foldl_append_joinStr {α : Type} (f : α → String) :
    ∀ (l : List α) (b : String),
      l.foldl (fun acc r => acc ++ f r) b = b ++ joinStr (l.map f) := by
  intro l
  induction l with
  | nil => intro b; simp [joinStr]
  | cons x xs ih =>
    intro b
    simp only [List.foldl_cons, List.map_cons, joinStr, ih, String.append_assoc]

lemma unboundGo_spec (zs : List Zone) :
    ∀ buf, (∀ z ∈ zs, z.ns ≠ []) →
      unboundGo buf zs = .ok (buf ++ joinStr (zs.map renderZoneSpec)) := by
  induction zs with
  | nil => intro buf _; simp [unboundGo, joinStr]
  | cons z rest ih =>
    intro buf h
    have hz : z.ns ≠ [] := h z (by simp)
    simp only [unboundGo, bind, Except.bind, soaW]
    cases hns : z.ns with
    | nil => exact absurd hns hz
    | cons n0 t =>
      dsimp only
      rw [ih _ (fun w hw => h w (by simp [hw]))]
      simp only [foldl_append_joinStr, List.map_cons, joinStr, renderZoneSpec, hns,
        String.append_assoc]

/-- C8: the renderer emits zones in input order and, within each zone, the
zone-declaration line, the SOA record, then the NS, MX, A/AAAA and PTR
records each in declared order (the SRV lines follow); the rendered text
is exactly the concatenation of the per-zone blocks in that order. -/
theorem c8_render_order (zones : List Zone) (h : ∀ z ∈ zones, z.ns ≠ []) :
    unbound zones = .ok ("server:\n" ++ joinStr (zones.map renderZoneSpec)) :=
  unboundGo_spec zones "server:\n" h

/-- Witness for C8 at a concrete one-zone list. -/
theorem c8_render_order_witness :
    unbound [{ zX with ns := [⟨"home.arpa", "ns1.home.arpa.", none⟩] }] =
      .ok ("server:\n" ++
        joinStr ([({ zX with ns := [⟨"home.arpa", "ns1.home.arpa.", none⟩] } : Zone)].map
          renderZoneSpec)) :=
  c8_render_order _ (by decide)

lemma hostsIpLoop_ok (nm host : String) (ttl : Option Tok) :
    ∀ (ips aliases : List Tok) (z : Zone),
      (∀ ip ∈ ips, isValidTok ip = true) →
      (∀ a ∈ aliases, ∃ s, a = Tok.str s) →
      ∃ z', hostsIpLoop nm host aliases ttl z ips = .ok z' ∧
        z'.hosts.length = z.hosts.length + (aliases.length + 1) * ips.length ∧
        z'.ptrs = z.ptrs ++ ips.map (fun ip => (⟨hostStringStr host nm, tokIp ip, ttl⟩ : PtrRec)) ∧
        z'.ns = z.ns ∧ z'.mx = z.mx ∧ z'.srv = z.srv := by
  intro ips
  induction ips with
  | nil =>
    intro aliases z _ _
    exact ⟨z, rfl, by simp, by simp, rfl, rfl, rfl⟩
  | cons ip rest ih =>
    intro aliases z hips hal
    have hipv := hips ip (by simp)
    obtain ⟨z1, hz1⟩ := aliasLoop_ok_ex nm ip ttl hipv aliases
      (pushPtr (pushHost z ⟨hostStringStr host nm, tokIp ip, ttl⟩)
        ⟨hostStringStr host nm, tokIp ip, ttl⟩) hal
    have hinv := aliasLoop_ok_inv nm ip ttl aliases _ z1 hz1
    obtain ⟨z', hz', hlen, hptr, hns, hmx, hsrv⟩ :=
      ih aliases z1 (fun i hi => hips i (by simp [hi])) hal
    simp only [pushPtr, pushHost] at hinv
    refine ⟨z', ?_, ?_, ?_, ?_, ?_, ?_⟩
    · simp only [hostsIpLoop, bind, Except.bind,
        createA_ok_of_valid nm host ip ttl hipv, createPtr_ok_of_valid nm host ip ttl hipv]
      rw [hz1]
      exact hz'
    · rw [hlen, hinv.2.2.2.2]
      simp only [List.length_append, List.length_cons, List.length_nil, Nat.mul_succ]
      omega
    · rw [hptr, hinv.1]
      simp
    · rw [hns, hinv.2.1]
    · rw [hmx, hinv.2.2.1]
    · rw [hsrv, hinv.2.2.2.1]

/-- C4: for every hosts-section entry whose classified value list has N
alias names and M valid IP literals, exactly (N+1)*M A/AAAA records and
exactly M PTR records are appended, and every new PTR names the primary
host label, never an alias. -/
theorem c4_hosts_expansion (nm host : String) (z : Zone) (v : Val)
    (ttl : Option Tok) (ips aliases : List Tok)
    (hc : classifyTokens (toArray v) = (ttl, ips, aliases))
    (hal : ∀ a ∈ aliases, ∃ s, a = Tok.str s) :
    ∃ z', processHostsEntry nm z host v = .ok (z', postPopVal v) ∧
      z'.hosts.length = z.hosts.length + (aliases.length + 1) * ips.length ∧
      z'.ptrs.length = z.ptrs.length + ips.length ∧
      (∀ p ∈ z'.ptrs, p ∈ z.ptrs ∨ p.name = hostStringStr host nm) := by
  have hips : ∀ ip ∈ ips, isValidTok ip = true := by
    intro ip hip
    have he : ips = (popTTL (toArray v)).2.filter isValidTok := by
      have := congrArg (fun t => t.2.1) hc
      simpa [classifyTokens] using this.symm
    rw [he] at hip
    exact (List.mem_filter.mp hip).2
  obtain ⟨z', h1, h2, h3, h4, h5, h6⟩ := hostsIpLoop_ok nm host ttl ips aliases z hips hal
  refine ⟨z', ?_, h2, ?_, ?_⟩
  · simp only [processHostsEntry, bind, Except.bind, hc]
    rw [h1]
  · rw [h3]
    simp
  · intro p hp
    rw [h3] at hp
    rcases List.mem_append.mp hp with hl | hr
    · exact Or.inl hl
    · obtain ⟨i, _, rfl⟩ := List.mem_map.mp hr
      exact Or.inr rfl

/-- Witness for C4 at a concrete hosts entry with one alias and one IP. -/
theorem c4_hosts_expansion_witness :
    ∃ z', processHostsEntry "home.arpa" zX "mickey"
        (.arr [.str "little", .str "192.168.1.10"]) = .ok (z', postPopVal (.arr [.str "little", .str "192.168.1.10"])) ∧
      z'.hosts.length = zX.hosts.length + (1 + 1) * 1 ∧
      z'.ptrs.length = zX.ptrs.length + 1 ∧
      (∀ p ∈ z'.ptrs, p ∈ zX.ptrs ∨ p.name = hostStringStr "mickey" "home.arpa") :=
  c4_hosts_expansion "home.arpa" "mickey" zX (.arr [.str "little", .str "192.168.1.10"])
    none [.str "192.168.1.10"] [.str "little"] (by decide)
    (by intro a ha; simp at ha; exact ⟨"little", ha⟩)

lemma find?_ip_isSome (ptrs : List PtrRec) (s : String) :
    (ptrs.find? (fun p => ipToString p.ip == s)).isSome = true ↔
      s ∈ ptrs.map (fun p => ipToString p.ip) := by
  rw [List.find?_isSome]
  constructor
  · rintro ⟨p, hp, hbeq⟩
    exact List.mem_map.mpr ⟨p, hp, beq_iff_eq.mp hbeq⟩
  · intro hmem
    obtain ⟨p, hp, hs⟩ := List.mem_map.mp hmem
    exact ⟨p, hp, beq_iff_eq.mpr hs⟩

lemma count_dedup_step (l : List String) (s0 : String) (s : String) :
    (if s0 ∈ l then l else l ++ [s0]).count s =
      if s = s0 then max (l.count s) 1 else l.count s := by
  by_cases hm : s0 ∈ l
  · simp only [hm, if_true]
    by_cases hs : s = s0
    · subst hs
      have : 0 < l.count s := List.count_pos_iff.mpr hm
      rw [if_pos rfl]
      omega
    · simp [hs]
  · simp only [hm, if_false, List.count_append]
    by_cases hs : s = s0
    · subst hs
      have : l.count s = 0 := List.count_eq_zero.mpr hm
      simp [this, List.count_singleton]
    · simp [hs, List.count_singleton, Ne.symm hs]


lemma dedupIpLoop_cons (nm host : String) (ttl : Option Tok) (ip : Tok)
    (rest : List Tok) (z : Zone) (hipv : isValidTok ip = true) :
    dedupIpLoop nm host ttl z (ip :: rest) =
      dedupIpLoop nm host ttl
        (if ((pushHost z ⟨hostStringStr host nm, tokIp ip, ttl⟩).ptrs.find?
              (fun p => ipToString p.ip == tokIpStr ip)).isSome
         then pushHost z ⟨hostStringStr host nm, tokIp ip, ttl⟩
         else pushPtr (pushHost z ⟨hostStringStr host nm, tokIp ip, ttl⟩)
                ⟨hostStringStr host nm, tokIp ip, ttl⟩) rest := by
  by_cases hm : ((pushHost z ⟨hostStringStr host nm, tokIp ip, ttl⟩).ptrs.find?
      (fun p => ipToString p.ip == tokIpStr ip)).isSome = true
  · simp only [dedupIpLoop, bind, Except.bind, pure, Except.pure,
      createA_ok_of_valid nm host ip ttl hipv,
      ipParseTok_ok_of_valid ip hipv, tokIpStr] at hm ⊢
    rw [if_pos hm, if_pos hm]
  · simp only [dedupIpLoop, bind, Except.bind, pure, Except.pure,
      createA_ok_of_valid nm host ip ttl hipv,
      ipParseTok_ok_of_valid ip hipv, createPtr_ok_of_valid nm host ip ttl hipv,
      tokIpStr] at hm ⊢
    rw [if_neg hm, if_neg hm]

lemma dedupIpLoop_ok (nm host : String) (ttl : Option Tok) :
    ∀ (ips : List Tok) (z : Zone), (∀ ip ∈ ips, isValidTok ip = true) →
      ∃ z', dedupIpLoop nm host ttl z ips = .ok z' ∧
        z'.hosts.length = z.hosts.length + ips.length ∧
        (∀ s, (ptrStrings z').count s =
          if s ∈ ips.map tokIpStr then max ((ptrStrings z).count s) 1
          else (ptrStrings z).count s) ∧
        (∀ p ∈ z'.ptrs, p ∈ z.ptrs ∨ p.name = hostStringStr host nm) ∧
        z'.ns = z.ns ∧ z'.mx = z.mx ∧ z'.srv = z.srv := by
  intro ips
  induction ips with
  | nil =>
    intro z _
    exact ⟨z, rfl, by simp, by simp, fun p hp => Or.inl hp, rfl, rfl, rfl⟩
  | cons ip rest ih =>
    intro z hips
    have hipv := hips ip (by simp)
    rw [dedupIpLoop_cons nm host ttl ip rest z hipv]
    set z1 : Zone := pushHost z ⟨hostStringStr host nm, tokIp ip, ttl⟩ with hz1def
    set z2 : Zone :=
      if (z1.ptrs.find? (fun p => ipToString p.ip == tokIpStr ip)).isSome then z1
      else pushPtr z1 ⟨hostStringStr host nm, tokIp ip, ttl⟩ with hz2def
    obtain ⟨z', hz', hlen, hcnt, hnames, hns, hmx, hsrv⟩ :=
      ih z2 (fun i hi => hips i (by simp [hi]))
    have hz1ptr : z1.ptrs = z.ptrs := rfl
    have hz2hosts : z2.hosts = z1.hosts := by
      rw [hz2def]; split <;> rfl
    have hz2ns : z2.ns = z.ns := by rw [hz2def]; split <;> rfl
    have hz2mx : z2.mx = z.mx := by rw [hz2def]; split <;> rfl
    have hz2srv : z2.srv = z.srv := by rw [hz2def]; split <;> rfl
    have hz2ptrrec : z2.ptrs = z.ptrs ∨
        (z2.ptrs = z.ptrs ++ [⟨hostStringStr host nm, tokIp ip, ttl⟩] ∧
          tokIpStr ip ∉ ptrStrings z) := by
      rw [hz2def]
      by_cases hm : (z1.ptrs.find? (fun p => ipToString p.ip == tokIpStr ip)).isSome = true
      · rw [if_pos hm]; exact Or.inl hz1ptr
      · rw [if_neg hm]
        refine Or.inr ⟨by simp [pushPtr, hz1ptr], fun hc => hm ?_⟩
        exact (find?_ip_isSome z1.ptrs (tokIpStr ip)).mpr (by rw [hz1ptr]; exact hc)
    have hz2ptr : ptrStrings z2 =
        if tokIpStr ip ∈ ptrStrings z then ptrStrings z
        else ptrStrings z ++ [tokIpStr ip] := by
      rw [hz2def]
      by_cases hm : (z1.ptrs.find? (fun p => ipToString p.ip == tokIpStr ip)).isSome = true
      · have hmem : tokIpStr ip ∈ ptrStrings z := by
          have := (find?_ip_isSome z1.ptrs (tokIpStr ip)).mp hm
          rw [hz1ptr] at this
          exact this
        rw [if_pos hm, if_pos hmem]
        exact congrArg (List.map _) hz1ptr
      · have hmem : tokIpStr ip ∉ ptrStrings z := by
          intro hc
          exact hm ((find?_ip_isSome z1.ptrs (tokIpStr ip)).mpr (by rw [hz1ptr]; exact hc))
        rw [if_neg hm, if_neg hmem]
        simp [ptrStrings, pushPtr, hz1ptr, tokIpStr]
    have hstep : ∀ s, (ptrStrings z2).count s =
        if s = tokIpStr ip then max ((ptrStrings z).count s) 1
        else (ptrStrings z).count s := by
      intro s
      rw [hz2ptr]
      exact count_dedup_step (ptrStrings z) (tokIpStr ip) s
    refine ⟨z', hz', ?_, ?_, ?_, hns.trans hz2ns, hmx.trans hz2mx, hsrv.trans hz2srv⟩
    · rw [hlen, hz2hosts, hz1def]
      simp [pushHost]
      omega
    · intro s
      rw [hcnt s, hstep s]
      simp only [List.map_cons, List.mem_cons]
      by_cases h1 : s = tokIpStr ip <;> by_cases h2 : s ∈ rest.map tokIpStr <;>
        simp [h1, h2]
    · intro p hp
      rcases hnames p hp with hl | hr2
      · rcases hz2ptrrec with he | ⟨he, _⟩
        · exact Or.inl (he ▸ hl)
        · rw [he] at hl
          rcases List.mem_append.mp hl with hl2 | hl3
          · exact Or.inl hl2
          · simp only [List.mem_singleton] at hl3
            exact Or.inr (by rw [hl3])
      · exact Or.inr hr2

lemma createNameserver_str (nm host : String) (ttl : Option Tok) :
    createNameserver nm (.str host) ttl = .ok ⟨nm, hostStringStr host nm, ttl⟩ := rfl

lemma createMX_str (nm host : String) (prio : Tok) (ttl : Option Tok) :
    createMX nm (.str host) prio ttl = .ok ⟨nm, hostStringStr host nm, prio, ttl⟩ := rfl

lemma filter_valid_all (l : List Tok) : ∀ t ∈ l.filter isValidTok, isValidTok t = true :=
  fun _ ht => (List.mem_filter.mp ht).2

/-- C3: for every nameserver-mapping entry and mx entry whose classified
value list contains at least one valid IP literal: if an A/AAAA record of
the same fully-qualified name already exists, no A/AAAA and no PTR records
are emitted while the NS/MX record itself still is; otherwise one A/AAAA
record per IP is emitted plus a PTR per IP unless a PTR with the same
resolved IP string already exists in the zone. -/
theorem c3_ns_mx_conditional_emission :
    (∀ (nm host : String) (z : Zone) (v : Val) (ttl : Option Tok) (rest : List Tok),
      popTTL (toArray v) = (ttl, rest) →
      rest.filter isValidTok ≠ [] →
      ((z.hosts.find? (fun h => h.name == hostStringStr host nm)).isSome = true →
        processNameserverEntry nm z host v =
          .ok (pushNs z ⟨nm, hostStringStr host nm, ttl⟩, postPopVal v)) ∧
      ((z.hosts.find? (fun h => h.name == hostStringStr host nm)).isSome = false →
        ∃ z', processNameserverEntry nm z host v = .ok (z', postPopVal v) ∧
          z'.ns = z.ns ++ [⟨nm, hostStringStr host nm, ttl⟩] ∧
          z'.hosts.length = z.hosts.length + (rest.filter isValidTok).length ∧
          (∀ s, (ptrStrings z').count s =
            if s ∈ (rest.filter isValidTok).map tokIpStr
            then max ((ptrStrings z).count s) 1 else (ptrStrings z).count s) ∧
          (∀ p ∈ z'.ptrs, p ∈ z.ptrs ∨ p.name = hostStringStr host nm))) ∧
    (∀ (nm host : String) (z : Zone) (v : Val) (prio : Tok) (rest0 : List Tok)
        (ttl : Option Tok) (rest : List Tok),
      jsShift (toArray v) = (some prio, rest0) →
      tokIsNaN (some prio) = false →
      popTTL rest0 = (ttl, rest) →
      rest.filter isValidTok ≠ [] →
      ((z.hosts.find? (fun h => h.name == hostStringStr host nm)).isSome = true →
        processMxEntry nm z host v =
          .ok (pushMx z ⟨nm, hostStringStr host nm, prio, ttl⟩, postMxVal v)) ∧
      ((z.hosts.find? (fun h => h.name == hostStringStr host nm)).isSome = false →
        ∃ z', processMxEntry nm z host v = .ok (z', postMxVal v) ∧
          z'.mx = z.mx ++ [⟨nm, hostStringStr host nm, prio, ttl⟩] ∧
          z'.hosts.length = z.hosts.length + (rest.filter isValidTok).length ∧
          (∀ s, (ptrStrings z').count s =
            if s ∈ (rest.filter isValidTok).map tokIpStr
            then max ((ptrStrings z).count s) 1 else (ptrStrings z).count s) ∧
          (∀ p ∈ z'.ptrs, p ∈ z.ptrs ∨ p.name = hostStringStr host nm))) := by
  constructor
  · intro nm host z v ttl rest hp hne
    have hie : (rest.filter isValidTok).isEmpty = false := by
      cases hfe : rest.filter isValidTok with
      | nil => exact absurd hfe hne
      | cons x xs => simp [hfe]
    constructor
    · intro hfound
      simp only [processNameserverEntry, bind, Except.bind, hp, createNameserver_str]
      rw [if_neg (by simp [hie]), if_pos (by simpa [pushNs] using hfound)]
    · intro hnf
      obtain ⟨z', hz', hlen, hcnt, hnames, hns, hmx, hsrv⟩ :=
        dedupIpLoop_ok nm host ttl (rest.filter isValidTok)
          (pushNs z ⟨nm, hostStringStr host nm, ttl⟩) (filter_valid_all rest)
      refine ⟨z', ?_, ?_, ?_, ?_, ?_⟩
      · simp only [processNameserverEntry, bind, Except.bind, hp, createNameserver_str]
        rw [if_neg (by simp [hie]), if_neg (by simpa [pushNs] using hnf), hz']
      · rw [hns]; rfl
      · rw [hlen]; rfl
      · intro s
        have := hcnt s
        simpa [ptrStrings, pushNs] using this
      · intro p hpmem
        rcases hnames p hpmem with hl | hr
        · exact Or.inl (by simpa [pushNs] using hl)
        · exact Or.inr hr
  · intro nm host z v prio rest0 ttl rest hs hnan hp hne
    have hie : (rest.filter isValidTok).isEmpty = false := by
      cases hfe : rest.filter isValidTok with
      | nil => exact absurd hfe hne
      | cons x xs => simp [hfe]
    constructor
    · intro hfound
      simp only [processMxEntry, hs, hnan, bind, Except.bind, hp, createMX_str,
        Bool.false_eq_true, if_false]
      rw [if_neg (by simp [hie]), if_pos (by simpa [pushMx] using hfound)]
    · intro hnf
      obtain ⟨z', hz', hlen, hcnt, hnames, hns, hmx, hsrv⟩ :=
        dedupIpLoop_ok nm host ttl (rest.filter isValidTok)
          (pushMx z ⟨nm, hostStringStr host nm, prio, ttl⟩) (filter_valid_all rest)
      refine ⟨z', ?_, ?_, ?_, ?_, ?_⟩
      · simp only [processMxEntry, hs, hnan, bind, Except.bind, hp, createMX_str,
          Bool.false_eq_true, if_false]
        rw [if_neg (by simp [hie]), if_neg (by simpa [pushMx] using hnf), hz']
      · rw [hmx]; rfl
      · rw [hlen]; rfl
      · intro s
        have := hcnt s
        simpa [ptrStrings, pushMx] using this
      · intro p hpmem
        rcases hnames p hpmem with hl | hr
        · exact Or.inl (by simpa [pushMx] using hl)
        · exact Or.inr hr

lemma ptrStrings_pushNs (z : Zone) (r : NsRec) : ptrStrings (pushNs z r) = ptrStrings z := rfl

lemma ptrStrings_pushMx (z : Zone) (r : MxRec) : ptrStrings (pushMx z r) = ptrStrings z := rfl

lemma processNameserverEntry_nodup (nm : String) (z : Zone) (k : String) (v : Val)
    (z1 : Zone) (v1 : Val) (h : processNameserverEntry nm z k v = .ok (z1, v1))
    (hnd : (ptrStrings z).Nodup) : (ptrStrings z1).Nodup := by
  simp only [processNameserverEntry, bind, Except.bind, createNameserver_str] at h
  by_cases hie : ((popTTL (toArray v)).2.filter isValidTok).isEmpty = true
  · rw [if_pos hie] at h
    simp only [Except.ok.injEq, Prod.mk.injEq] at h
    rw [← h.1, ptrStrings_pushNs]
    exact hnd
  · rw [if_neg hie] at h
    by_cases hf : ((pushNs z ⟨nm, hostStringStr k nm, (popTTL (toArray v)).1⟩).hosts.find?
        (fun h2 => h2.name == hostStringStr k nm)).isSome = true
    · rw [if_pos hf] at h
      simp only [Except.ok.injEq, Prod.mk.injEq] at h
      rw [← h.1, ptrStrings_pushNs]
      exact hnd
    · rw [if_neg hf] at h
      obtain ⟨z', hz', hlen, hcnt, hnames, hns, hmx, hsrv⟩ :=
        dedupIpLoop_ok nm k (popTTL (toArray v)).1 ((popTTL (toArray v)).2.filter isValidTok)
          (pushNs z ⟨nm, hostStringStr k nm, (popTTL (toArray v)).1⟩)
          (filter_valid_all _)
      rw [hz'] at h
      simp only [Except.ok.injEq, Prod.mk.injEq] at h
      rw [← h.1]
      rw [List.nodup_iff_count_le_one] at hnd ⊢
      intro s
      have hc := hcnt s
      rw [ptrStrings_pushNs] at hc
      rw [hc]
      have := hnd s
      split <;> omega

lemma processMxEntry_nodup (nm : String) (z : Zone) (k : String) (v : Val)
    (z1 : Zone) (v1 : Val) (h : processMxEntry nm z k v = .ok (z1, v1))
    (hnd : (ptrStrings z).Nodup) : (ptrStrings z1).Nodup := by
  simp only [processMxEntry] at h
  by_cases hnan : tokIsNaN (jsShift (toArray v)).1 = true
  · rw [if_pos hnan] at h
    exact absurd h (by simp)
  · rw [if_neg hnan] at h
    cases hs : (jsShift (toArray v)).1 with
    | none => rw [hs] at hnan; simp [tokIsNaN] at hnan
    | some prio =>
      rw [hs] at h
      simp only [bind, Except.bind, createMX_str] at h
      by_cases hie : (((popTTL (jsShift (toArray v)).2).2).filter isValidTok).isEmpty = true
      · rw [if_pos hie] at h
        simp only [Except.ok.injEq, Prod.mk.injEq] at h
        rw [← h.1, ptrStrings_pushMx]
        exact hnd
      · rw [if_neg hie] at h
        by_cases hf : ((pushMx z ⟨nm, hostStringStr k nm, prio,
            (popTTL (jsShift (toArray v)).2).1⟩).hosts.find?
            (fun h2 => h2.name == hostStringStr k nm)).isSome = true
        · rw [if_pos hf] at h
          simp only [Except.ok.injEq, Prod.mk.injEq] at h
          rw [← h.1, ptrStrings_pushMx]
          exact hnd
        · rw [if_neg hf] at h
          obtain ⟨z', hz', hlen, hcnt, hnames, hns, hmx, hsrv⟩ :=
            dedupIpLoop_ok nm k (popTTL (jsShift (toArray v)).2).1
              (((popTTL (jsShift (toArray v)).2).2).filter isValidTok)
              (pushMx z ⟨nm, hostStringStr k nm, prio, (popTTL (jsShift (toArray v)).2).1⟩)
              (filter_valid_all _)
          rw [hz'] at h
          simp only [Except.ok.injEq, Prod.mk.injEq] at h
          rw [← h.1]
          rw [List.nodup_iff_count_le_one] at hnd ⊢
          intro s
          have hc := hcnt s
          rw [ptrStrings_pushMx] at hc
          rw [hc]
          have := hnd s
          split <;> omega

lemma nsArrLoop_ptrs (nm : String) :
    ∀ (l : List Tok) (z z' : Zone), nsArrLoop nm z l = .ok z' → z'.ptrs = z.ptrs := by
  intro l
  induction l with
  | nil => intro z z' h; simp [nsArrLoop] at h; rw [← h]
  | cons t rest ih =>
    intro z z' h
    simp only [nsArrLoop, bind, Except.bind] at h
    cases h1 : createNameserver nm t none with
    | error e => simp [h1] at h
    | ok r =>
      simp only [h1] at h
      exact (ih (pushNs z r) z' h).trans rfl

lemma processNameserver_nodup (nm : String) (nsv : NsVal) (z z1 : Zone) (nsv' : NsVal)
    (h : processNameserver nm z nsv = .ok (z1, nsv'))
    (hnd : (ptrStrings z).Nodup) : (ptrStrings z1).Nodup := by
  cases nsv with
  | noneNS =>
    simp only [processNameserver, Except.ok.injEq, Prod.mk.injEq] at h
    rw [← h.1]
    exact hnd
  | arrNS l =>
    simp only [processNameserver, bind, Except.bind] at h
    cases h1 : nsArrLoop nm z l with
    | error e => simp [h1] at h
    | ok z2 =>
      simp only [h1, Except.ok.injEq, Prod.mk.injEq] at h
      rw [← h.1]
      unfold ptrStrings
      rw [nsArrLoop_ptrs nm l z z2 h1]
      exact hnd
  | mapNS m =>
    simp only [processNameserver, bind, Except.bind] at h
    cases h1 : processSection (processNameserverEntry nm) z m with
    | error e => simp [h1] at h
    | ok r =>
      simp only [h1, Except.ok.injEq, Prod.mk.injEq] at h
      rw [← h.1]
      exact processSection_rel
        (R := fun a b => (ptrStrings a).Nodup → (ptrStrings b).Nodup)
        (fun z k v za va hok hn => processNameserverEntry_nodup nm z k v za va hok hn)
        (fun _ hn => hn)
        (fun _ _ _ hab hbc hn => hbc (hab hn))
        m z r.1 r.2 h1 hnd

lemma processSrvEntry_fields (nm : String) (z : Zone) (service : String) (l : List Tok)
    (z1 : Zone) (l1 : List Tok) (h : processSrvEntry nm z service l = .ok (z1, l1)) :
    z1.ptrs = z.ptrs ∧ z1.hosts = z.hosts ∧ z1.ns = z.ns ∧ z1.mx = z.mx := by
  simp only [processSrvEntry] at h
  split at h
  · split at h
    · simp only [bind, Except.bind] at h
      cases h1 : createSRV nm _ service _ _ _ (popTTL l).1 with
      | error e => rw [h1] at h; exact absurd h (by simp)
      | ok r =>
        rw [h1] at h
        simp only [Except.ok.injEq, Prod.mk.injEq] at h
        rw [← h.1]
        exact ⟨rfl, rfl, rfl, rfl⟩
    · exact absurd h (by simp)
  · split at h
    · split at h
      · simp only [bind, Except.bind] at h
        cases h1 : createSRV nm _ service _ _ _ (popTTL l).1 with
        | error e => rw [h1] at h; exact absurd h (by simp)
        | ok r =>
          rw [h1] at h
          simp only [Except.ok.injEq, Prod.mk.injEq] at h
          rw [← h.1]
          exact ⟨rfl, rfl, rfl, rfl⟩
      · exact absurd h (by simp)
    · exact absurd h (by simp)

lemma processSrvSection_fields (nm : String) :
    ∀ (entries : List (String × List Tok)) (z z1 : Zone) (entries' : List (String × List Tok)),
      processSrvSection nm z entries = .ok (z1, entries') →
      z1.ptrs = z.ptrs ∧ z1.hosts = z.hosts ∧ z1.ns = z.ns ∧ z1.mx = z.mx := by
  intro entries
  induction entries with
  | nil =>
    intro z z1 entries' h
    simp only [processSrvSection, Except.ok.injEq, Prod.mk.injEq] at h
    rw [← h.1]
    exact ⟨rfl, rfl, rfl, rfl⟩
  | cons kv rest ih =>
    obtain ⟨k, lv⟩ := kv
    intro z z1 entries' h
    simp only [processSrvSection, bind, Except.bind] at h
    cases h1 : processSrvEntry nm z k lv with
    | error e => simp [h1] at h
    | ok r1 =>
      simp only [h1] at h
      cases h2 : processSrvSection nm r1.1 rest with
      | error e => simp [h2] at h
      | ok r2 =>
        simp only [h2, Except.ok.injEq, Prod.mk.injEq] at h
        have he := processSrvEntry_fields nm z k lv r1.1 r1.2 h1
        have hr := ih r1.1 r2.1 r2.2 h2
        rw [← h.1]
        exact ⟨hr.1.trans he.1, hr.2.1.trans he.2.1, hr.2.2.1.trans he.2.2.1,
          hr.2.2.2.trans he.2.2.2⟩

/-- Extracts the zone list of a `parseZone` run (empty on error), used to
state concrete runs compactly. -/
def zonesOf (r : Except String (List Zone × List (String × ZoneIn))) : List Zone :=
  match r with
  | .ok p => p.1
  | .error _ => []

/-- Concrete input for the C2 counterexample: two hosts entries claiming
the same IP literal. -/
def c2Input : List (String × ZoneIn) :=
  [("z", { soa := ⟨.str "ns1", "a@b", none, none, none, none, none, none⟩,
           addresses := [],
           hosts := [("a", .arr [.str "1.2.3.4"]), ("b", .arr [.str "1.2.3.4"])],
           nameserver := .noneNS, mx := [], srv := [] })]

/-- C2 counterexample: the hosts loop performs no PTR de-duplication, so
two hosts entries with the same IP yield two PTR records with the same
resolved IP string in one zone. -/
theorem c2_counterexample :
    (zonesOf (parseZone c2Input 1)).map (fun z => z.ptrs.map (fun p => ipToString p.ip)) =
      [["1.2.3.4", "1.2.3.4"]] ∧
    ¬ (["1.2.3.4", "1.2.3.4"] : List String).Nodup := by
  constructor
  · decide
  · decide

/-- C2 (amended): PTR de-duplication only guards the nameserver/mx stages;
if the PTR records produced by the addresses/hosts stages of a zone have
pairwise-distinct resolved IP strings, then the fully built zone's PTR
records have pairwise-distinct resolved IP strings. -/
theorem c2_ptr_unique_amended (nm : String) (zin : ZoneIn) (S : Int)
    (z2 : Zone) (a' h' : List (String × Val)) (z : Zone) (zin' : ZoneIn)
    (hfwd : forwardStages nm zin S = .ok (z2, a', h'))
    (hnd : (ptrStrings z2).Nodup)
    (hbuild : buildZone nm zin S = .ok (z, zin')) :
    (ptrStrings z).Nodup := by
  simp only [buildZone, bind, Except.bind, hfwd] at hbuild
  cases h3 : processNameserver nm z2 zin.nameserver with
  | error e => simp [h3] at hbuild
  | ok r3 =>
    simp only [h3] at hbuild
    cases h4 : processSection (processMxEntry nm) r3.1 zin.mx with
    | error e => simp [h4] at hbuild
    | ok r4 =>
      simp only [h4] at hbuild
      cases h5 : processSrvSection nm r4.1 zin.srv with
      | error e => simp [h5] at hbuild
      | ok r5 =>
        simp only [h5, Except.ok.injEq, Prod.mk.injEq] at hbuild
        have hnd3 : (ptrStrings r3.1).Nodup :=
          processNameserver_nodup nm zin.nameserver z2 r3.1 r3.2 h3 hnd
        have hnd4 : (ptrStrings r4.1).Nodup :=
          processSection_rel
            (R := fun a b => (ptrStrings a).Nodup → (ptrStrings b).Nodup)
            (fun za k v zb vb hok hn => processMxEntry_nodup nm za k v zb vb hok hn)
            (fun _ hn => hn)
            (fun _ _ _ hab hbc hn => hbc (hab hn))
            zin.mx r3.1 r4.1 r4.2 h4 hnd3
        have hnd5 : (ptrStrings r5.1).Nodup := by
          unfold ptrStrings
          rw [(processSrvSection_fields nm zin.srv r4.1 r5.1 r5.2 h5).1]
          exact hnd4
        rw [← hbuild.1]
        exact hnd5

/-- Input for the C2 amended witness: one hosts entry and one nameserver
entry sharing an IP, so the nameserver stage must de-duplicate. -/
def c2wInput : ZoneIn :=
  { soa := ⟨.str "ns1", "a@b", none, none, none, none, none, none⟩,
    addresses := [],
    hosts := [("a", .arr [.str "10.0.0.1"])],
    nameserver := .mapNS [("ns1", .arr [.str "10.0.0.1"])],
    mx := [], srv := [] }

instance : Inhabited Zone :=
  ⟨createZone "" ⟨.str "", "", none, none, none, none, none, none⟩ 0⟩

/-- Witness for the C2 amended theorem at a concrete input. -/
theorem c2_ptr_unique_amended_witness :
    (ptrStrings (zonesOf (parseZone [("z", c2wInput)] 1)).headI).Nodup := by
  have h := c2_ptr_unique_amended "z" c2wInput 1
    ({ createZone "z" c2wInput.soa 1 with
        hosts := [⟨"a.z.", .v4 10 0 0 1, none⟩],
        ptrs := [⟨"a.z.", .v4 10 0 0 1, none⟩] })
    [] [("a", .arr [.str "10.0.0.1"])]
    ({ createZone "z" c2wInput.soa 1 with
        hosts := [⟨"a.z.", .v4 10 0 0 1, none⟩, ⟨"ns1.z.", .v4 10 0 0 1, none⟩],
        ptrs := [⟨"a.z.", .v4 10 0 0 1, none⟩],
        ns := [⟨"z", "ns1.z.", none⟩] })
    { soa := c2wInput.soa, addresses := [],
      hosts := [("a", .arr [.str "10.0.0.1"])],
      nameserver := .mapNS [("ns1", .arr [.str "10.0.0.1"])],
      mx := [], srv := [] }
    (by decide) (by decide) (by decide)
  have he : (zonesOf (parseZone [("z", c2wInput)] 1)).headI =
      ({ createZone "z" c2wInput.soa 1 with
          hosts := [⟨"a.z.", .v4 10 0 0 1, none⟩, ⟨"ns1.z.", .v4 10 0 0 1, none⟩],
          ptrs := [⟨"a.z.", .v4 10 0 0 1, none⟩],
          ns := [⟨"z", "ns1.z.", none⟩] } : Zone) := by decide
  rw [he]
  exact h

/-- Witness for C3 at a concrete nameserver entry with one IP and no
pre-existing host record. -/
theorem c3_ns_mx_conditional_emission_witness :
    ∃ z', processNameserverEntry "home.arpa" zX "ns1" (.arr [.str "192.168.1.1"]) =
        .ok (z', postPopVal (.arr [.str "192.168.1.1"])) ∧
      z'.ns = zX.ns ++ [⟨"home.arpa", hostStringStr "ns1" "home.arpa", none⟩] ∧
      z'.hosts.length = zX.hosts.length + ([Tok.str "192.168.1.1"].filter isValidTok).length ∧
      (∀ s, (ptrStrings z').count s =
        if s ∈ ([Tok.str "192.168.1.1"].filter isValidTok).map tokIpStr
        then max ((ptrStrings zX).count s) 1 else (ptrStrings zX).count s) ∧
      (∀ p ∈ z'.ptrs, p ∈ zX.ptrs ∨ p.name = hostStringStr "ns1" "home.arpa") :=
  (c3_ns_mx_conditional_emission.1 "home.arpa" "ns1" zX (.arr [.str "192.168.1.1"])
    none [.str "192.168.1.1"] (by decide) (by decide)).2 (by decide)

/-- An entry value list that does not end in a numeric token is not
mutated by the trailing-TTL pop. -/
def valNoPop : Val → Bool
  | .arr l => tokIsNaN l.getLast?
  | _ => true

/-- A nameserver section whose mapping entries all satisfy `valNoPop`. -/
def nsNoPop : NsVal → Bool
  | .mapNS m => m.all (fun e => valNoPop e.2)
  | _ => true

/-- An input zone that `parseZone` cannot mutate: empty `mx` and `srv`
sections and no array entry with a numeric last element. -/
def noMutZone (zin : ZoneIn) : Bool :=
  zin.mx.isEmpty && zin.srv.isEmpty &&
  zin.addresses.all (fun e => valNoPop e.2) &&
  zin.hosts.all (fun e => valNoPop e.2) &&
  nsNoPop zin.nameserver

/-- An input that `parseZone` cannot mutate. -/
def noMut (i : List (String × ZoneIn)) : Bool := i.all (fun p => noMutZone p.2)

lemma postPopVal_eq (v : Val) (h : valNoPop v = true) : postPopVal v = v := by
  cases v with
  | arr l =>
    simp only [valNoPop] at h
    simp [postPopVal, popTTL, h]
  | scalar t => rfl
  | undef => rfl

lemma processAddressesEntry_snd (nm : String) (z : Zone) (k : String) (v : Val)
    (z1 : Zone) (v1 : Val) (h : processAddressesEntry nm z k v = .ok (z1, v1)) :
    v1 = postPopVal v := by
  simp only [processAddressesEntry, bind, Except.bind] at h
  cases h1 : addressesIpLoop nm k (classifyTokens (toArray v)).2.2
      (classifyTokens (toArray v)).1 z (classifyTokens (toArray v)).2.1 with
  | error e => simp [h1] at h
  | ok z2 =>
    simp only [h1, Except.ok.injEq, Prod.mk.injEq] at h
    exact h.2.symm

lemma processHostsEntry_snd (nm : String) (z : Zone) (k : String) (v : Val)
    (z1 : Zone) (v1 : Val) (h : processHostsEntry nm z k v = .ok (z1, v1)) :
    v1 = postPopVal v := by
  simp only [processHostsEntry, bind, Except.bind] at h
  cases h1 : hostsIpLoop nm k (classifyTokens (toArray v)).2.2
      (classifyTokens (toArray v)).1 z (classifyTokens (toArray v)).2.1 with
  | error e => simp [h1] at h
  | ok z2 =>
    simp only [h1, Except.ok.injEq, Prod.mk.injEq] at h
    exact h.2.symm

lemma processNameserverEntry_snd (nm : String) (z : Zone) (k : String) (v : Val)
    (z1 : Zone) (v1 : Val) (h : processNameserverEntry nm z k v = .ok (z1, v1)) :
    v1 = postPopVal v := by
  simp only [processNameserverEntry, bind, Except.bind, createNameserver_str] at h
  by_cases hie : ((popTTL (toArray v)).2.filter isValidTok).isEmpty = true
  · rw [if_pos hie] at h
    simp only [Except.ok.injEq, Prod.mk.injEq] at h
    exact h.2.symm
  · rw [if_neg hie] at h
    by_cases hf : ((pushNs z ⟨nm, hostStringStr k nm, (popTTL (toArray v)).1⟩).hosts.find?
        (fun h2 => h2.name == hostStringStr k nm)).isSome = true
    · rw [if_pos hf] at h
      simp only [Except.ok.injEq, Prod.mk.injEq] at h
      exact h.2.symm
    · rw [if_neg hf] at h
      cases h1 : dedupIpLoop nm k (popTTL (toArray v)).1
          (pushNs z ⟨nm, hostStringStr k nm, (popTTL (toArray v)).1⟩)
          ((popTTL (toArray v)).2.filter isValidTok) with
      | error e => simp [h1] at h
      | ok z2 =>
        simp only [h1, Except.ok.injEq, Prod.mk.injEq] at h
        exact h.2.symm

lemma processSection_vals {f : Zone → String → Val → Except String (Zone × Val)}
    {P : Val → Prop}
    (hf : ∀ z k v z1 v1, f z k v = .ok (z1, v1) → P v → v1 = v) :
    ∀ (l : List (String × Val)) (z : Zone) (z' : Zone) (l' : List (String × Val)),
      processSection f z l = .ok (z', l') → (∀ e ∈ l, P e.2) → l' = l := by
  intro l
  induction l with
  | nil =>
    intro z z' l' h _
    simp only [processSection, Except.ok.injEq, Prod.mk.injEq] at h
    exact h.2.symm
  | cons kv rest ih =>
    obtain ⟨k, v⟩ := kv
    intro z z' l' h hP
    simp only [processSection, bind, Except.bind] at h
    cases h1 : f z k v with
    | error e => simp [h1] at h
    | ok r1 =>
      simp only [h1] at h
      cases h2 : processSection f r1.1 rest with
      | error e => simp [h2] at h
      | ok r2 =>
        simp only [h2, Except.ok.injEq, Prod.mk.injEq] at h
        have hv : r1.2 = v := hf z k v r1.1 r1.2 h1 (hP (k, v) (by simp))
        have hrest : r2.2 = rest := ih r1.1 r2.1 r2.2 h2 (fun e he => hP e (by simp [he]))
        rw [← h.2, hv, hrest]

lemma forwardStages_snd (nm : String) (zin : ZoneIn) (S : Int)
    (f : Zone × List (String × Val) × List (String × Val))
    (h : forwardStages nm zin S = .ok f)
    (haddr : ∀ e ∈ zin.addresses, valNoPop e.2 = true)
    (hhosts : ∀ e ∈ zin.hosts, valNoPop e.2 = true) :
    f.2.1 = zin.addresses ∧ f.2.2 = zin.hosts := by
  simp only [forwardStages, bind, Except.bind] at h
  cases h1 : processSection (processAddressesEntry nm) (createZone nm zin.soa S)
      zin.addresses with
  | error e => simp [h1] at h
  | ok r1 =>
    simp only [h1] at h
    cases h2 : processSection (processHostsEntry nm) r1.1 zin.hosts with
    | error e => simp [h2] at h
    | ok r2 =>
      simp only [h2, Except.ok.injEq] at h
      have ha : r1.2 = zin.addresses :=
        processSection_vals
          (P := fun v => valNoPop v = true)
          (fun z k v z1 v1 hok hP =>
            (processAddressesEntry_snd nm z k v z1 v1 hok).trans (postPopVal_eq v hP))
          zin.addresses (createZone nm zin.soa S) r1.1 r1.2 h1 haddr
      have hh : r2.2 = zin.hosts :=
        processSection_vals
          (P := fun v => valNoPop v = true)
          (fun z k v z1 v1 hok hP =>
            (processHostsEntry_snd nm z k v z1 v1 hok).trans (postPopVal_eq v hP))
          zin.hosts r1.1 r2.1 r2.2 h2 hhosts
      rw [← h]
      exact ⟨ha, hh⟩

lemma processNameserver_snd (nm : String) (nsv : NsVal) (z : Zone)
    (r : Zone × NsVal) (h : processNameserver nm z nsv = .ok r)
    (hns : nsNoPop nsv = true) : r.2 = nsv := by
  cases nsv with
  | noneNS =>
    simp only [processNameserver, Except.ok.injEq] at h
    rw [← h]
  | arrNS l =>
    simp only [processNameserver, bind, Except.bind] at h
    cases h1 : nsArrLoop nm z l with
    | error e => simp [h1] at h
    | ok z2 =>
      simp only [h1, Except.ok.injEq] at h
      rw [← h]
  | mapNS m =>
    simp only [processNameserver, bind, Except.bind] at h
    cases h1 : processSection (processNameserverEntry nm) z m with
    | error e => simp [h1] at h
    | ok r1 =>
      simp only [h1, Except.ok.injEq] at h
      simp only [nsNoPop, List.all_eq_true] at hns
      have hm : r1.2 = m :=
        processSection_vals
          (P := fun v => valNoPop v = true)
          (fun z k v z1 v1 hok hP =>
            (processNameserverEntry_snd nm z k v z1 v1 hok).trans (postPopVal_eq v hP))
          m z r1.1 r1.2 h1 hns
      rw [← h, hm]

lemma buildZone_nomut (nm : String) (zin : ZoneIn) (S : Int) (z : Zone) (zin' : ZoneIn)
    (hm : noMutZone zin = true) (h : buildZone nm zin S = .ok (z, zin')) : zin' = zin := by
  simp only [noMutZone, Bool.and_eq_true] at hm
  obtain ⟨⟨⟨⟨hmx, hsrv⟩, haddr⟩, hhosts⟩, hns⟩ := hm
  have hmxe : zin.mx = [] := by
    cases hx : zin.mx with
    | nil => rfl
    | cons a b => rw [hx] at hmx; simp [List.isEmpty] at hmx
  have hsrve : zin.srv = [] := by
    cases hx : zin.srv with
    | nil => rfl
    | cons a b => rw [hx] at hsrv; simp [List.isEmpty] at hsrv
  simp only [List.all_eq_true] at haddr hhosts
  simp only [buildZone, bind, Except.bind, hmxe, hsrve, processSection,
    processSrvSection] at h
  cases hf : forwardStages nm zin S with
  | error e => simp [hf] at h
  | ok f =>
    simp only [hf] at h
    cases h3 : processNameserver nm f.1 zin.nameserver with
    | error e => simp [h3] at h
    | ok r3 =>
      simp only [h3, Except.ok.injEq, Prod.mk.injEq] at h
      have hfs := forwardStages_snd nm zin S f hf haddr hhosts
      have hnss := processNameserver_snd nm zin.nameserver f.1 r3 h3 hns
      rw [← h.2, hfs.1, hfs.2, hnss]
      cases zin with
      | mk soa a hl nsv mx srv =>
        simp only at hmxe hsrve
        rw [hmxe, hsrve]

lemma parseZoneGo_nomut (S : Int) :
    ∀ (i : List (String × ZoneIn)) (zs : List Zone) (i' : List (String × ZoneIn)),
      noMut i = true → parseZoneGo S i = .ok (zs, i') → i' = i := by
  intro i
  induction i with
  | nil =>
    intro zs i' _ h
    simp only [parseZoneGo, Except.ok.injEq, Prod.mk.injEq] at h
    exact h.2.symm
  | cons p rest ih =>
    obtain ⟨nm, zin⟩ := p
    intro zs i' hmut h
    simp only [noMut, List.all_cons, Bool.and_eq_true] at hmut
    simp only [parseZoneGo, bind, Except.bind] at h
    cases h1 : buildZone nm zin S with
    | error e => simp [h1] at h
    | ok r =>
      simp only [h1] at h
      cases h2 : parseZoneGo S rest with
      | error e => simp [h2] at h
      | ok rs =>
        simp only [h2, Except.ok.injEq, Prod.mk.injEq] at h
        have hz : r.2 = zin := by
          have := buildZone_nomut nm zin S r.1 r.2 hmut.1 (by rw [← h1])
          exact this
        have hrest : rs.2 = rest :=
          ih rs.1 rs.2 (by simp [noMut, List.all_eq_true] at hmut ⊢; exact hmut.2) h2
        rw [← h.2, hz, hrest]

/-- C1 (amended): `parseZone` mutates value lists of `mx`/`srv` entries
(by shifting positional values) and TTL-bearing array entries (by popping
the trailing number); for an input with empty `mx` and `srv` sections and
no numeric-last array entry, a successful run leaves the input unmodified
and a second run over it returns the identical result. -/
theorem c1_purity_amended (i : List (String × ZoneIn)) (S : Int) (zs : List Zone)
    (i' : List (String × ZoneIn)) (hmut : noMut i = true)
    (h : parseZone i S = .ok (zs, i')) :
    i' = i ∧ parseZone i' S = parseZone i S := by
  have he : i' = i := parseZoneGo_nomut S i zs i' hmut h
  exact ⟨he, by rw [he]⟩

/-- Concrete input for the C1 counterexample: an mx entry with a priority
and one IP. -/
def c1Input : List (String × ZoneIn) :=
  [("z", { soa := ⟨.str "ns1", "a@b", none, none, none, none, none, none⟩,
           addresses := [], hosts := [], nameserver := .noneNS,
           mx := [("mail", .arr [.num 10, .str "1.2.3.4"])], srv := [] })]

/-- The post-run state of `c1Input`: the mx priority has been shifted off
the entry's value list in place. -/
def c1Mutated : List (String × ZoneIn) :=
  [("z", { soa := ⟨.str "ns1", "a@b", none, none, none, none, none, none⟩,
           addresses := [], hosts := [], nameserver := .noneNS,
           mx := [("mail", .arr [.str "1.2.3.4"])], srv := [] })]

/-- Extracts the post-run input of a `parseZone` run. -/
def inputOf (r : Except String (List Zone × List (String × ZoneIn))) :
    Option (List (String × ZoneIn)) :=
  match r with
  | .ok p => some p.2
  | .error _ => none

/-- C1 counterexample: `parseZone` shifts the mx priority off the input's
own array, so the first run alters the in-memory input and the second run
over it fails instead of reproducing the zones. -/
theorem c1_counterexample :
    inputOf (parseZone c1Input 1) = some c1Mutated ∧
    c1Mutated ≠ c1Input ∧
    parseZone c1Mutated 1 =
      .error "First Argument to MX is prio (Number): [object Object] mail 1.2.3.4" := by
  refine ⟨by decide, by decide, by decide⟩

/-- Concrete no-mutation input for the C1 witness. -/
def c1wInput : List (String × ZoneIn) :=
  [("w", { soa := soaX, addresses := [], hosts := [], nameserver := .noneNS,
           mx := [], srv := [] })]

/-- Witness for the C1 amended theorem at a concrete input. -/
theorem c1_purity_amended_witness :
    c1wInput = c1wInput ∧ parseZone c1wInput 1 = parseZone c1wInput 1 :=
  c1_purity_amended c1wInput 1 [createZone "w" soaX 1] c1wInput (by decide) (by decide)

/-- Starting-segment test over character lists. -/
def isSubAt : List Char → List Char → Bool
  | [], _ => true
  | _ :: _, [] => false
  | a :: as, b :: bs => a = b && isSubAt as bs

/-- Substring occurrence over character lists. -/
def subStrOccurs (needle : List Char) : List Char → Bool
  | [] => isSubAt needle []
  | c :: rest => isSubAt needle (c :: rest) || subStrOccurs needle rest

/-- Substring occurrence test used to inspect error messages. -/
def occursIn (needle hay : String) : Bool := subStrOccurs needle.data hay.data

/-- Concrete input for C5: an mx entry whose first element is not
numeric, under a zone whose name is `home.arpa`. -/
def c5BadInput : List (String × ZoneIn) :=
  [("home.arpa", { soa := ⟨.str "ns1", "a@b", none, none, none, none, none, none⟩,
                   addresses := [], hosts := [], nameserver := .noneNS,
                   mx := [("mail", .arr [.str "oops"])], srv := [] })]

/-- Concrete input for the well-formed half of C5: an mx entry whose first
element is the numeric priority. -/
def c5GoodInput : List (String × ZoneIn) :=
  [("home.arpa", { soa := ⟨.str "ns1", "a@b", none, none, none, none, none, none⟩,
                   addresses := [], hosts := [], nameserver := .noneNS,
                   mx := [("mail", .arr [.num 10])], srv := [] })]

/-- C5: a non-numeric first mx element is a fatal error and a numeric one
yields exactly one MX record with that priority — but the error message
interpolates the zone object (printed `[object Object]`) instead of the
zone name, so the message does not contain the zone name. -/
theorem c5_mx_error_message :
    parseZone c5BadInput 1 =
      .error "First Argument to MX is prio (Number): [object Object] mail oops" ∧
    occursIn "home.arpa"
      "First Argument to MX is prio (Number): [object Object] mail oops" = false ∧
    occursIn "[object Object]"
      "First Argument to MX is prio (Number): [object Object] mail oops" = true ∧
    (zonesOf (parseZone c5GoodInput 1)).map (fun z => z.mx) =
      [[⟨"home.arpa", "mail.home.arpa.", .num 10, none⟩]] := by
  refine ⟨by decide, by decide, by decide, by decide⟩

/-- Concrete input for the C6 counterexample: an srv value list of arity
three (no trailing TTL), first element numeric, second not. -/
def c6Input : List (String × ZoneIn) :=
  [("z", { soa := ⟨.str "ns1", "a@b", none, none, none, none, none, none⟩,
           addresses := [], hosts := [], nameserver := .noneNS, mx := [],
           srv := [("_sip._tcp", [.num 5060, .str "sipserver", .str "extra"])] })]

/-- C6 counterexample: an srv value list of arity three is accepted (no
fatal error) and yields an SRV record; the extra trailing element is
silently ignored. -/
theorem c6_counterexample :
    (zonesOf (parseZone c6Input 1)).map (fun z => z.srv) =
      [[⟨"sipserver.z.", "_sip._tcp.z.", .num 5, .num 0, .num 5060, none⟩]] := by
  decide

/-- C6 (amended): after trailing-TTL removal the srv loop accepts exactly
the two leading numeric patterns — a numeric first element followed by a
non-numeric (or absent) second gives the short shape with priority 5 and
weight 0, and three leading numeric elements give the full shape — while
anything else (first element NaN, or first and second numeric with third
NaN) is a fatal error; arity is never checked, the target is the next
element and any elements after it are ignored. -/
theorem c6_srv_shapes_amended (nm service : String) (z : Zone) (l : List Tok)
    (ttl : Option Tok) (info : List Tok) (hp : popTTL l = (ttl, info)) :
    (∀ prio weight port rest, info = prio :: weight :: port :: rest →
      tokIsNaN (some prio) = false → tokIsNaN (some weight) = false →
      tokIsNaN (some port) = false →
      ∀ target srest, rest = Tok.str target :: srest →
      ∀ sn sp sr, splitOnDot service = sn :: sp :: sr →
      ∃ r, processSrvEntry nm z service l = .ok ({ z with srv := z.srv ++ [r] }, rest) ∧
        r.prio = prio ∧ r.weight = weight ∧ r.port = port ∧
        r.name = hostStringStr target nm) ∧
    (∀ port rest, info = port :: rest →
      tokIsNaN (some port) = false → tokIsNaN rest.head? = true →
      ∀ target srest, rest = Tok.str target :: srest →
      ∀ sn sp sr, splitOnDot service = sn :: sp :: sr →
      ∃ r, processSrvEntry nm z service l = .ok ({ z with srv := z.srv ++ [r] }, rest) ∧
        r.prio = .num 5 ∧ r.weight = .num 0 ∧ r.port = port ∧
        r.name = hostStringStr target nm) ∧
    ((tokIsNaN (info.get? 0) = true ∨
      (tokIsNaN (info.get? 0) = false ∧ tokIsNaN (info.get? 1) = false ∧
        tokIsNaN (info.get? 2) = true)) →
      ∃ e, processSrvEntry nm z service l = .error e) := by
  refine ⟨?_, ?_, ?_⟩
  · intro prio weight port rest hinfo h0 h1 h2 target srest hrest sn sp sr hsplit
    subst hinfo
    subst hrest
    simp only [processSrvEntry, hp, List.get?, h0, h1, h2, Bool.not_false, Bool.and_self,
      if_pos, createSRV, hsplit, hostStringTok, bind, Except.bind, List.head?]
    exact ⟨_, rfl, rfl, rfl, rfl, rfl⟩
  · intro port rest hinfo h0 hh target srest hrest sn sp sr hsplit
    subst hinfo
    subst hrest
    simp only [List.head?] at hh
    simp only [processSrvEntry, hp, List.get?, h0, hh, Bool.not_false, Bool.not_true,
      Bool.and_false, Bool.false_and, Bool.and_true, Bool.true_and,
      Bool.false_eq_true, if_false, if_pos, createSRV, hsplit, hostStringTok,
      bind, Except.bind, List.head?]
    exact ⟨_, rfl, rfl, rfl, rfl, rfl⟩
  · intro hcond
    rcases hcond with h0 | ⟨h0, h1, h2⟩
    · simp only [processSrvEntry, hp, h0, Bool.not_true, Bool.false_and, Bool.false_eq_true,
        if_false]
      exact ⟨_, rfl⟩
    · simp only [processSrvEntry, hp, h0, h1, h2, Bool.not_true, Bool.not_false,
        Bool.true_and, Bool.and_false, Bool.and_true, Bool.false_eq_true, if_false]
      exact ⟨_, rfl⟩

/-- Witness for the C6 amended theorem: the short srv shape at a concrete
entry. -/
theorem c6_srv_shapes_amended_witness :
    ∃ r, processSrvEntry "home.arpa" zX "_sip._tcp" [.num 5060, .str "sipserver"] =
        .ok ({ zX with srv := zX.srv ++ [r] }, [Tok.str "sipserver"]) ∧
      r.prio = .num 5 ∧ r.weight = .num 0 ∧ r.port = .num 5060 ∧
      r.name = hostStringStr "sipserver" "home.arpa" :=
  (c6_srv_shapes_amended "home.arpa" "_sip._tcp" zX [.num 5060, .str "sipserver"]
      none [.num 5060, .str "sipserver"] (by decide)).2.1
    (.num 5060) [.str "sipserver"] rfl (by decide) (by decide)
    "sipserver" [] rfl "_sip" "_tcp" [] (by decide)
